import Mathlib

/-!
Verification development for the `ndsbr_py` pipeline (src/main.py, src/src/ndsbr.py,
src/src/utils.py).  The pandas / geopandas data frames are shallowly embedded as
lists of rows over an explicit column header; the third-party geometry engine
(shapely / PROJ) is the out-of-scope collaborator of the spec, so point-in-polygon
containment is realised on axis-aligned boxes, nearest-neighbour distance as exact
squared Euclidean distance on rational coordinates, and coordinate reprojection as
a retagging of the frame's CRS code (coordinates are kept in one working frame;
all distance statements are made in the projected system, as the spec does).
Every pipeline function is translated from the repository source.
-/

/-- A calendar timestamp as produced by `pd.to_datetime` with an explicit format. -/
structure Timestamp where
  year : Nat
  month : Nat
  day : Nat
  hour : Nat
  minute : Nat
  second : Nat
deriving DecidableEq, Repr

/-- An exact rational number, as an integer numerator over a positive integer
denominator (not necessarily reduced).  All constructors below keep the
denominator positive; comparisons are by cross-multiplication, so they agree
with the real-number value.  This is the working coordinate/number type of the
embedding. -/
structure Q where
  num : Int
  den : Int
deriving DecidableEq, Repr

def Q.ofInt (n : Int) : Q := ⟨n, 1⟩

def Q.neg (a : Q) : Q := ⟨-a.num, a.den⟩

def Q.add (a b : Q) : Q := ⟨a.num * b.den + b.num * a.den, a.den * b.den⟩

def Q.sub (a b : Q) : Q := ⟨a.num * b.den - b.num * a.den, a.den * b.den⟩

def Q.mul (a b : Q) : Q := ⟨a.num * b.num, a.den * b.den⟩

/-- Value-equality of rationals (cross-multiplication). -/
def Q.eqv (a b : Q) : Bool := decide (a.num * b.den = b.num * a.den)

/-- Value comparison `a ≤ b` (denominators are positive by convention). -/
def Q.le (a b : Q) : Bool := decide (a.num * b.den ≤ b.num * a.den)

/-- Value comparison `a < b` (denominators are positive by convention). -/
def Q.lt (a b : Q) : Bool := decide (a.num * b.den < b.num * a.den)

/-- Value minimum. -/
def Q.minv (a b : Q) : Q := if Q.le a b then a else b

/-- A Python/numpy floating point value: a finite rational, an infinity, or NaN.
`float(...)` / `.astype(float)` accept the special tokens, so these are values,
not errors. -/
inductive PyFloat where
  | finite : Q → PyFloat
  | posInf : PyFloat
  | negInf : PyFloat
  | nan : PyFloat
deriving DecidableEq, Repr

/-- A cell value of a (Geo)DataFrame.  Geometry cells are points or axis-aligned
boxes (the concrete stand-in for the opaque polygon engine); `idx` is the
temporary index column a spatial join emits. -/
inductive Val where
  | str : String → Val
  | flt : PyFloat → Val
  | ts : Timestamp → Val
  | pt : Q → Q → Val
  | box : Q → Q → Q → Q → Val
  | idx : Nat → Val
deriving DecidableEq, Repr

/-- A row: one optional value per column; `none` is pandas' missing value (NaN/NaT). -/
abbrev Row := List (Option Val)

/-- A (Geo)DataFrame: ordered column header, rows, and an optional CRS code
(`none` for a plain pandas frame). -/
structure Frame where
  cols : List String
  rows : List Row
  crs : Option Int
deriving DecidableEq, Repr

/-- Well-formedness: each row has exactly one cell per column. -/
def Frame.WF (df : Frame) : Prop := ∀ r ∈ df.rows, r.length = df.cols.length

instance (df : Frame) : Decidable df.WF := by
  unfold Frame.WF; infer_instance

/-- Value of the cell of row `r` under column `c` (first occurrence of the label). -/
def getCell (cols : List String) (r : Row) (c : String) : Option Val :=
  match cols.findIdx? (· = c) with
  | some i => (r[i]?).join
  | none => none

/-- The column `c` of a frame, as a list of cells. -/
def getColVals (df : Frame) (c : String) : List (Option Val) :=
  df.rows.map (fun r => getCell df.cols r c)

/-- `df[c] = vals`: overwrite the column if the label exists, else append it. -/
def setCol (c : String) (vals : List (Option Val)) (df : Frame) : Frame :=
  match df.cols.findIdx? (· = c) with
  | some i => { df with rows := List.zipWith (fun r v => r.set i v) df.rows vals }
  | none =>
    ⟨df.cols ++ [c], List.zipWith (fun r v => r ++ [v]) df.rows vals, df.crs⟩

/-- `df[cs]`: project onto the listed columns, in that order; `KeyError` when a
label is absent, exactly as pandas raises. -/
def select (df : Frame) (cs : List String) : Except String Frame :=
  if cs.all (fun c => df.cols.contains c) then
    .ok ⟨cs, df.rows.map (fun r => cs.map (fun c => getCell df.cols r c)), df.crs⟩
  else .error "KeyError"

/-- `df.rename(columns=m)`: relabel columns through the mapping, leaving
unmapped labels untouched. -/
def rename (m : List (String × String)) (df : Frame) : Frame :=
  { df with cols := df.cols.map (fun c =>
      match m.find? (fun p => p.1 = c) with
      | some p => p.2
      | none => c) }

/-- `df.drop(columns=[c])` for a column that the callers always have. -/
def dropCol (c : String) (df : Frame) : Frame :=
  match df.cols.findIdx? (· = c) with
  | some i => ⟨df.cols.eraseIdx i, df.rows.map (fun r => r.eraseIdx i), df.crs⟩
  | none => df

/-- `gdf.to_crs(code)`: the numeric transformation is the external PROJ
collaborator (out of scope per the spec); the embedding retags the frame and
keeps coordinates in the single working frame. -/
def to_crs (df : Frame) (code : Int) : Frame := { df with crs := some code }

/-! ### Python float parsing (`astype(float)`) -/

def digitVal (c : Char) : Nat := c.toNat - 48

/-- Consume a maximal run of digits: value, number of digits, rest. -/
def npot10 : Nat → Nat
  | 0 => 1
  | n + 1 => 10 * npot10 n

def takeDigits : List Char → Nat × Nat × List Char
  | c :: rest =>
    if c.isDigit then
      let (v, n, r) := takeDigits rest
      (digitVal c * npot10 n + v, n + 1, r)
    else (0, 0, c :: rest)
  | [] => (0, 0, [])

def stripWS (l : List Char) : List Char :=
  ((l.dropWhile (·.isWhitespace)).reverse.dropWhile (·.isWhitespace)).reverse

/-- Multiply a rational by the signed power of ten `10 ^ e`. -/
def applyExp10 (q : Q) (e : Int) : Q :=
  match e with
  | .ofNat n => ⟨q.num * Int.ofNat (npot10 n), q.den⟩
  | .negSucc n => ⟨q.num, q.den * Int.ofNat (npot10 (n + 1))⟩

def parseExpDigits (l : List Char) : Option Int :=
  let (v, n, r) := takeDigits l
  if 1 ≤ n ∧ r = [] then some (Int.ofNat v) else none

def parseSignedExp : List Char → Option Int
  | '+' :: rest => parseExpDigits rest
  | '-' :: rest => (parseExpDigits rest).map (fun v => -v)
  | rest => parseExpDigits rest

/-- The (optional) exponent suffix of a float literal. -/
def parseExpPart : List Char → Option Int
  | [] => some 0
  | 'e' :: rest => parseSignedExp rest
  | 'E' :: rest => parseSignedExp rest
  | _ => none

/-- An unsigned float literal: digits, optional fraction, optional exponent. -/
def parseUnsignedFloat (l : List Char) : Option Q :=
  let (ip, n1, r1) := takeDigits l
  match r1 with
  | '.' :: r2 =>
    let (fp, n2, r3) := takeDigits r2
    if n1 + n2 = 0 then none
    else
      match parseExpPart r3 with
      | some e =>
        some (applyExp10 ⟨Int.ofNat (ip * npot10 n2 + fp), Int.ofNat (npot10 n2)⟩ e)
      | none => none
  | _ =>
    if n1 = 0 then none
    else
      match parseExpPart r1 with
      | some e => some (applyExp10 (Q.ofInt (Int.ofNat ip)) e)
      | none => none

/-- `float(s)` as numpy's `astype(float)` applies it to a string cell: strips
whitespace, accepts an optional sign, `inf`/`infinity`/`nan` in any case, or a
decimal literal with optional fraction and exponent. -/
def parsePyFloat (s : String) : Option PyFloat :=
  let l := stripWS s.toList
  let sl := match l with
    | '+' :: r => (false, r)
    | '-' :: r => (true, r)
    | r => (false, r)
  let neg := sl.1
  let l1 := sl.2
  let low := l1.map Char.toLower
  if low = ['i', 'n', 'f'] ∨ low = ['i', 'n', 'f', 'i', 'n', 'i', 't', 'y'] then
    some (if neg then .negInf else .posInf)
  else if low = ['n', 'a', 'n'] then some .nan
  else
    match parseUnsignedFloat l1 with
    | some q => some (.finite (if neg then q.neg else q))
    | none => none

def PyFloat.isFinite : PyFloat → Bool
  | .finite _ => true
  | _ => false

/-- `.str.replace(",", ".")` on a single-character pattern is a character map. -/
def commaToDot (s : String) : String :=
  String.mk (s.toList.map (fun c => if c = ',' then '.' else c))

/-! ### Date/time parsing (`pd.to_datetime` with an explicit format) -/

/-- One or two digits whose value lies in `[lo, hi]` (the strptime field parser
for `%d`, `%m`, `%H`, `%M`, `%S`). -/
def p2 (lo hi : Nat) : List Char → Option (Nat × List Char)
  | [] => none
  | [c] =>
    if c.isDigit then
      if lo ≤ digitVal c ∧ digitVal c ≤ hi then some (digitVal c, []) else none
    else none
  | c :: d :: rest =>
    if c.isDigit then
      if d.isDigit then
        let n := 10 * digitVal c + digitVal d
        if lo ≤ n ∧ n ≤ hi then some (n, rest) else none
      else
        if lo ≤ digitVal c ∧ digitVal c ≤ hi then some (digitVal c, d :: rest) else none
    else none

/-- Exactly four digits (the strptime `%Y` field). -/
def pYear : List Char → Option (Nat × List Char)
  | a :: b :: c :: d :: rest =>
    if a.isDigit ∧ b.isDigit ∧ c.isDigit ∧ d.isDigit then
      some (1000 * digitVal a + 100 * digitVal b + 10 * digitVal c + digitVal d, rest)
    else none
  | _ => none

def isLeap (y : Nat) : Bool := (y % 4 = 0 ∧ y % 100 ≠ 0) ∨ y % 400 = 0

def daysInMonth (y m : Nat) : Nat :=
  if m = 2 then (if isLeap y then 29 else 28)
  else if m = 4 ∨ m = 6 ∨ m = 9 ∨ m = 11 then 30
  else 31

/-- The `%d/%m/%Y` part of the format: day, month, four-digit year, with the
calendar-validity check `to_datetime` performs. Returns the unconsumed input. -/
def parseDateCore (l : List Char) : Option ((Nat × Nat × Nat) × List Char) :=
  match p2 1 31 l with
  | none => none
  | some (d, l1) =>
    match l1 with
    | [] => none
    | s1 :: l2 =>
      if s1 = '/' then
        match p2 1 12 l2 with
        | none => none
        | some (m, l3) =>
          match l3 with
          | [] => none
          | s2 :: l4 =>
            if s2 = '/' then
              match pYear l4 with
              | none => none
              | some (y, l5) =>
                if d ≤ daysInMonth y m then some ((d, m, y), l5) else none
            else none
      else none

/-- The `%H:%M:%S` part of the format. -/
def parseTimeCore (l : List Char) : Option ((Nat × Nat × Nat) × List Char) :=
  match p2 0 23 l with
  | none => none
  | some (h, l1) =>
    match l1 with
    | [] => none
    | s1 :: l2 =>
      if s1 = ':' then
        match p2 0 59 l2 with
        | none => none
        | some (m, l3) =>
          match l3 with
          | [] => none
          | s2 :: l4 =>
            if s2 = ':' then
              match p2 0 59 l4 with
              | none => none
              | some (s, l5) => some ((h, m, s), l5)
            else none
      else none

/-- `pd.to_datetime(s, format="%d/%m/%Y")`, as a total parser. -/
def parseDateOnly (s : String) : Option (Nat × Nat × Nat) :=
  match parseDateCore s.toList with
  | some (v, []) => some v
  | _ => none

/-- A time-of-day string accepted by the `%H:%M:%S` format in full. -/
def parseTimeOnly (s : String) : Option (Nat × Nat × Nat) :=
  match parseTimeCore s.toList with
  | some (v, []) => some v
  | _ => none

def validDate (s : String) : Bool := (parseDateOnly s).isSome

def validTime (s : String) : Bool := (parseTimeOnly s).isSome

/-- `pd.to_datetime(s, format="%d/%m/%Y %H:%M:%S")`, as a total parser. -/
def parseFull (s : String) : Option Timestamp :=
  match parseDateCore s.toList with
  | none => none
  | some (dmy, rest1) =>
    match rest1 with
    | [] => none
    | sp :: rest =>
      if sp = ' ' then
        match parseTimeCore rest with
        | none => none
        | some (hms, rest2) =>
          match rest2 with
          | [] => some ⟨dmy.2.2, dmy.2.1, dmy.1, hms.1, hms.2.1, hms.2.2⟩
          | _ => none
      else none

/-! ### Cleaner (`ndsbr.clean_cols`, `ndsbr.create_datetime`) -/

/-- The allow-list `COLS` of `clean_cols`. -/
def COLS : List String :=
  ["DRIVER", "LONG", "LAT", "DAY", "TRIP", "ID", "PR", "TIME_ACUM",
   "SPD_KMH", "VALID_TIME", "TIMESTAMP", "ACEL_MS2"]

/-- The rename mapping of `clean_cols`; note `TIMESTAMP` has no entry. -/
def RENAME_MAP : List (String × String) :=
  [("DRIVER", "driver"), ("LONG", "long"), ("LAT", "lat"), ("DAY", "date"),
   ("TRIP", "trip"), ("ID", "id"), ("PR", "time"), ("TIME_ACUM", "time_acum"),
   ("SPD_KMH", "spd_kmh"), ("VALID_TIME", "valid_time"), ("ACEL_MS2", "acel_ms2")]

/-- Whether `.str.replace(",", ".").astype(float)` accepts a cell: a string cell
must parse as a float after the comma substitution; a missing or non-string
cell passes through as NaN (the `.str` accessor yields NaN on non-strings). -/
def floatCellOK (v : Option Val) : Bool :=
  match v with
  | some (.str s) => (parsePyFloat (commaToDot s)).isSome
  | _ => true

/-- The converted cell, for cells accepted by `floatCellOK`. -/
def floatCellConv (v : Option Val) : Option Val :=
  match v with
  | some (.str s) => (parsePyFloat (commaToDot s)).map Val.flt
  | _ => none

/-- `to_float` inside `clean_cols`: `df[col].str.replace(",", ".").astype(float)`.
The vectorised `astype` raises if any cell fails and otherwise converts all. -/
def to_float (df : Frame) (c : String) : Except String Frame :=
  if df.cols.contains c then
    if (getColVals df c).all floatCellOK then
      .ok (setCol c ((getColVals df c).map floatCellConv) df)
    else .error "ValueError"
  else .error "KeyError"

/-- `ndsbr.clean_cols`: select the allow-list, rename (all but `TIMESTAMP`) to
lowercase canonical names, then coerce the four locale-numeric columns. -/
def clean_cols (df : Frame) : Except String Frame := do
  let d1 ← select df COLS
  let d2 := rename RENAME_MAP d1
  let d3 ← to_float d2 "long"
  let d4 ← to_float d3 "lat"
  let d5 ← to_float d4 "spd_kmh"
  let d6 ← to_float d5 "acel_ms2"
  pure d6

/-- Whether `df[date_col] + " " + df[time_col]` accepts a pair of cells: both
strings concatenate, a missing side propagates NaN, any other combination is a
pandas `TypeError`. -/
def concatCellOK (dv tv : Option Val) : Bool :=
  match dv, tv with
  | some (.str _), some (.str _) => true
  | none, _ => true
  | _, none => true
  | _, _ => false

def concatCell (dv tv : Option Val) : Option Val :=
  match dv, tv with
  | some (.str d), some (.str t) => some (.str (d ++ " " ++ t))
  | _, _ => none

/-- Acceptance of a cell by `pd.to_datetime(..., format="%d/%m/%Y %H:%M:%S")`:
strings must match the format, missing values become NaT, existing datetimes
pass through. -/
def dtCellOK (v : Option Val) : Bool :=
  match v with
  | some (.str s) => (parseFull s).isSome
  | some (.ts _) => true
  | none => true
  | _ => false

def dtCellConv (v : Option Val) : Option Val :=
  match v with
  | some (.str s) => (parseFull s).map Val.ts
  | some (.ts x) => some (.ts x)
  | _ => none

/-- Acceptance of a cell by `pd.to_datetime(..., format="%d/%m/%Y")`. -/
def dateCellOK (v : Option Val) : Bool :=
  match v with
  | some (.str s) => (parseDateOnly s).isSome
  | some (.ts _) => true
  | none => true
  | _ => false

def dateCellConv (v : Option Val) : Option Val :=
  match v with
  | some (.str s) => (parseDateOnly s).map (fun p => Val.ts ⟨p.2.2, p.2.1, p.1, 0, 0, 0⟩)
  | some (.ts x) => some (.ts x)
  | _ => none

/-- The frame after `df["datetime"] = df[date_col] + " " + df[time_col]`. -/
def withConcatCol (date_col time_col : String) (df : Frame) : Frame :=
  setCol "datetime"
    (List.zipWith concatCell (getColVals df date_col) (getColVals df time_col)) df

/-- The frame after `df["datetime"] = pd.to_datetime(df["datetime"], ...)`. -/
def withParsedCol (df1 : Frame) : Frame :=
  setCol "datetime" ((getColVals df1 "datetime").map dtCellConv) df1

/-- `ndsbr.create_datetime`: build `datetime` as the space-separated
concatenation of the date and time columns, parse it with the explicit
day/month/year hour/minute/second format, then re-parse the date column with
the day/month/year format.  Each vectorised step fails when any of its cells
is rejected. -/
def create_datetime (date_col time_col : String) (df : Frame) : Except String Frame :=
  if df.cols.contains date_col && df.cols.contains time_col then
    if (List.zipWith concatCellOK (getColVals df date_col)
          (getColVals df time_col)).all (fun b => b) then
      if (getColVals (withConcatCol date_col time_col df) "datetime").all dtCellOK then
        if (getColVals (withParsedCol (withConcatCol date_col time_col df))
              date_col).all dateCellOK then
          .ok (setCol date_col
            ((getColVals (withParsedCol (withConcatCol date_col time_col df))
                date_col).map dateCellConv)
            (withParsedCol (withConcatCol date_col time_col df)))
        else .error "ValueError"
      else .error "ValueError"
    else .error "TypeError"
  else .error "KeyError"

/-! ### Spatial enricher (`ndsbr.create_spatial_data` and the two joins) -/

/-- `ndsbr.create_spatial_data`: one point geometry per row from `long`/`lat`,
tagged with the geographic CRS 4674.  Rows whose coordinates are not finite
floats produce an empty/NaN geometry, which no spatial predicate ever matches;
the embedding records it as a missing geometry cell. -/
def create_spatial_data (df : Frame) : Frame :=
  let geoms := df.rows.map (fun r =>
    match getCell df.cols r "long", getCell df.cols r "lat" with
    | some (.flt (.finite x)), some (.flt (.finite y)) => some (Val.pt x y)
    | _, _ => none)
  { setCol "geometry" geoms df with crs := some 4674 }

/-- Shapely `contains` on the embedded geometries: an axis-aligned box strictly
contains an interior point (boundary points are not contained). -/
def geomContains : Val → Val → Bool
  | .box x1 y1 x2 y2, .pt px py => Q.lt x1 px && Q.lt px x2 && Q.lt y1 py && Q.lt py y2
  | _, _ => false

/-- Squared Euclidean distance between two point geometries. -/
def sqDist (a b : Val) : Option Q :=
  match a, b with
  | .pt x1 y1, .pt x2 y2 =>
    some (Q.add (Q.mul (Q.sub x1 x2) (Q.sub x1 x2)) (Q.mul (Q.sub y1 y2) (Q.sub y1 y2)))
  | _, _ => none

/-- The non-geometry columns of a header. -/
def nonGeom (cols : List String) : List String :=
  cols.filter (fun c => !(c == "geometry"))

/-- geopandas suffixing of overlapping column names (`lsuffix`/`rsuffix`). -/
def suffixCols (cols common : List String) (suf : String) : List String :=
  cols.map (fun c => if common.contains c then c ++ suf else c)

def containsMatch (lcols : List String) (lr : Row) (rcols : List String) (rr : Row) : Bool :=
  match getCell lcols lr "geometry", getCell rcols rr "geometry" with
  | some g1, some g2 => geomContains g1 g2
  | _, _ => false

/-- The polygon rows (with their indices) containing the point row `rr`. -/
def matchesContains (left : Frame) (rcols : List String) (rr : Row) : List (Nat × Row) :=
  left.rows.enum.filter (fun p => containsMatch left.cols p.2 rcols rr)

/-- `gpd.sjoin(left, right, how="right", predicate="contains")`: every right
(point) row is kept; it is repeated once per containing left (polygon) row, or
kept once with null left attributes when no polygon contains it.  Overlapping
column labels receive the `_left`/`_right` suffixes; the join emits an
`index_left` column and keeps the right frame's geometry and CRS. -/
def sjoin_contains_right (left right : Frame) : Frame :=
  let lng := nonGeom left.cols
  let common := lng.filter (fun c => right.cols.contains c)
  let cols := suffixCols lng common "_left" ++ suffixCols right.cols common "_right"
    ++ ["index_left"]
  let rows := right.rows.bind (fun rr =>
    match matchesContains left right.cols rr with
    | [] => [lng.map (fun _ => (none : Option Val)) ++ rr ++ [(none : Option Val)]]
    | ms => ms.map (fun p =>
        lng.map (fun c => getCell left.cols p.2 c) ++ rr ++ [some (Val.idx p.1)]))
  ⟨cols, rows, right.crs⟩

/-- `ndsbr.join_bairros_data`: align the neighbourhood layer's CRS with the
point layer's, spatially join (right-outer over the points, containment
predicate), and drop the internal `index_left` column. -/
def join_bairros_data (ndsbr_data bairros_data : Frame) : Frame :=
  let bairros := if ndsbr_data.crs ≠ bairros_data.crs
    then { bairros_data with crs := ndsbr_data.crs } else bairros_data
  dropCol "index_left" (sjoin_contains_right bairros ndsbr_data)

/-- The candidate street rows for a point row: index, row, and squared distance,
restricted to squared distance at most `maxD * maxD`. -/
def nearCands (lcols : List String) (lr : Row) (right : Frame) (maxD : Q) :
    List (Nat × Row × Q) :=
  right.rows.enum.filterMap (fun p =>
    match getCell lcols lr "geometry", getCell right.cols p.2 "geometry" with
    | some g1, some g2 =>
      match sqDist g1 g2 with
      | some q => if Q.le q (Q.mul maxD maxD) then some (p.1, p.2, q) else none
      | none => none
    | _, _ => none)

def minCandDist : List (Nat × Row × Q) → Option Q
  | [] => none
  | t :: rest => some (rest.foldl (fun a p => Q.minv a p.2.2) t.2.2)

/-- `gpd.sjoin_nearest(left, right, how="left", max_distance=maxD)`: every left
(point) row is kept; it receives the attributes of the nearest right (street)
row within `maxD` (all of them on an exact tie), or null street attributes when
none is in range.  Overlapping labels receive `_left`/`_right` suffixes; the
join emits `index_right` and keeps the left geometry and CRS. -/
def sjoin_nearest_left (left right : Frame) (maxD : Q) : Frame :=
  let rng := nonGeom right.cols
  let common := left.cols.filter (fun c => rng.contains c)
  let cols := suffixCols left.cols common "_left" ++ suffixCols rng common "_right"
    ++ ["index_right"]
  let rows := left.rows.bind (fun lr =>
    let cands := nearCands left.cols lr right maxD
    match minCandDist cands with
    | none => [lr ++ rng.map (fun _ => (none : Option Val)) ++ [(none : Option Val)]]
    | some m => (cands.filter (fun t => Q.eqv t.2.2 m)).map (fun t =>
        lr ++ rng.map (fun c => getCell right.cols t.2.1 c) ++ [some (Val.idx t.1)]))
  ⟨cols, rows, left.crs⟩

/-- `ndsbr.join_vias_data`: reproject both inputs to the projected CRS 31982
when needed, nearest-join with `max_distance=20`, reproject the result back to
the geographic CRS 4674, and drop the internal `index_right` column. -/
def join_vias_data (ndsbr_data vias_data : Frame) : Frame :=
  let n1 := if ndsbr_data.crs ≠ some 31982 then to_crs ndsbr_data 31982 else ndsbr_data
  let v1 := if vias_data.crs ≠ some 31982 then to_crs vias_data 31982 else vias_data
  let gdf := sjoin_nearest_left n1 v1 (Q.ofInt 20)
  dropCol "index_right" (to_crs gdf 4674)

/-! ### Post-processor (`ndsbr.fill_missing_speed`, `ndsbr.fix_col_order`) -/

/-- `Series.replace` with the road-type dictionary: mapped codes are replaced,
any other value is left as itself. -/
def spd_replace (s : String) : String :=
  if s = "1" then "70"
  else if s = "2" then "60"
  else if s = "3" then "40"
  else if s = "4" then "30"
  else s

/-- One cell of `spd_limit.fillna(tipo_via_ctb.replace({...}))`: a non-null
speed limit is kept; a null one is filled with the replaced road-type value
(which is the road-type code itself when it is not one of "1".."4"), and stays
null only when the road-type cell is itself null. -/
def fillSpdCell (spd tipo : Option Val) : Option Val :=
  match spd with
  | some v => some v
  | none =>
    match tipo with
    | some (.str s) => some (.str (spd_replace s))
    | some v => some v
    | none => none

/-- `ndsbr.fill_missing_speed`. -/
def fill_missing_speed (ndsbr_data : Frame) : Except String Frame :=
  if ndsbr_data.cols.contains "spd_limit" && ndsbr_data.cols.contains "tipo_via_ctb" then
    .ok (setCol "spd_limit"
      (List.zipWith fillSpdCell (getColVals ndsbr_data "spd_limit")
        (getColVals ndsbr_data "tipo_via_ctb"))
      ndsbr_data)
  else .error "KeyError"

/-- The canonical output column order of `fix_col_order`. -/
def COLS17 : List String :=
  ["id", "driver", "trip", "long", "lat", "date", "time",
   "time_acum", "spd_kmh", "acel_ms2", "valid_time",
   "nome_bairro", "nome_via", "tipo_via_cwb", "tipo_via_ctb", "spd_limit",
   "geometry"]

/-- `ndsbr.fix_col_order`: reindex to the canonical columns (`KeyError` when
one is absent). -/
def fix_col_order (ndsbr_data : Frame) : Except String Frame :=
  select ndsbr_data COLS17

/-! ### Loaders (`utils.py`) — the file/network read is the opaque collaborator;
the selection/renaming applied to the loaded table is embedded from the source. -/

/-- `utils.load_bairros` after `gpd.read_file`: select `NOME`/`geometry` and
rename `NOME` to `bairro`. -/
def load_bairros (raw : Frame) : Except String Frame := do
  let b ← select raw ["NOME", "geometry"]
  pure (rename [("NOME", "bairro")] b)

/-- `utils.load_vias_cwb` after `gpd.read_file`. -/
def load_vias_cwb (raw : Frame) : Except String Frame := do
  let v ← select raw ["NMVIA", "SVIARIO", "HIERARQUIA", "geometry"]
  pure (rename
    [("NMVIA", "nome_via"), ("SVIARIO", "tipo_via_cwb"), ("HIERARQUIA", "tipo_via_ctb")] v)

/-- The pure tail of `utils.import_osm` after the cached network is read:
select `maxspeed`/`geometry` and rename `maxspeed` to `spd_limit`. -/
def import_osm_table (axis : Frame) : Except String Frame := do
  let a ← select axis ["maxspeed", "geometry"]
  pure (rename [("maxspeed", "spd_limit")] a)


/-! ### Generic inversion and positional lemmas used by the claim proofs -/

theorem except_bind_ok {α β : Type} {x : Except String α} {f : α → Except String β} {b : β}
    (h : (x >>= f) = .ok b) : ∃ a, x = .ok a ∧ f a = .ok b := by
  cases x with
  | error e => simp [Bind.bind, Except.bind] at h
  | ok a => exact ⟨a, rfl, by simpa [Bind.bind, Except.bind] using h⟩

theorem findIdx?_of_contains {l : List String} {c : String} (h : l.contains c = true) :
    ∃ i, l.findIdx? (· = c) = some i := by
  induction l with
  | nil => simp at h
  | cons a as ih =>
    by_cases hac : a = c
    · exact ⟨0, by simp [List.findIdx?, hac]⟩
    · have : as.contains c = true := by
        simp [List.contains_cons] at h
        rcases h with h | h
        · exact absurd h.symm hac
        · simpa using h
      obtain ⟨i, hi⟩ := ih this
      exact ⟨i + 1, by simp [List.findIdx?_cons, hac, hi]⟩

theorem setCol_cols {df : Frame} {c : String} {vals : List (Option Val)}
    (h : df.cols.contains c = true) : (setCol c vals df).cols = df.cols := by
  obtain ⟨i, hi⟩ := findIdx?_of_contains h
  unfold setCol
  rw [hi]

theorem select_ok {df out : Frame} {cs : List String} (h : select df cs = .ok out) :
    out.cols = cs ∧ cs.all (fun c => df.cols.contains c) = true := by
  unfold select at h
  split at h
  · exact ⟨by cases h; rfl, by assumption⟩
  · cases h

theorem to_float_ok {df out : Frame} {c : String} (h : to_float df c = .ok out) :
    df.cols.contains c = true ∧
    out = setCol c ((getColVals df c).map floatCellConv) df := by
  unfold to_float at h
  split at h
  · split at h
    · exact ⟨by assumption, by cases h; rfl⟩
    · cases h
  · cases h

theorem clean_cols_ok_cols {df out : Frame} (h : clean_cols df = .ok out) :
    out.cols = ["driver", "long", "lat", "date", "trip", "id", "time", "time_acum",
      "spd_kmh", "valid_time", "TIMESTAMP", "acel_ms2"] := by
  unfold clean_cols at h
  obtain ⟨d1, h1, h⟩ := except_bind_ok h
  obtain ⟨d3, h3, h⟩ := except_bind_ok h
  obtain ⟨d4, h4, h⟩ := except_bind_ok h
  obtain ⟨d5, h5, h⟩ := except_bind_ok h
  obtain ⟨d6, h6, h⟩ := except_bind_ok h
  have hpure : d6 = out := by
    simpa [Pure.pure, Except.pure] using h
  subst hpure
  have c1 := (select_ok h1).1
  have c3 := to_float_ok h3
  have c4 := to_float_ok h4
  have c5 := to_float_ok h5
  have c6 := to_float_ok h6
  have e3 : d3.cols = (rename RENAME_MAP d1).cols := by
    rw [c3.2]; exact setCol_cols c3.1
  have e4 : d4.cols = d3.cols := by rw [c4.2]; exact setCol_cols c4.1
  have e5 : d5.cols = d4.cols := by rw [c5.2]; exact setCol_cols c5.1
  have e6 : d6.cols = d5.cols := by rw [c6.2]; exact setCol_cols c6.1
  have er : (rename RENAME_MAP d1).cols = d1.cols.map (fun c =>
      match RENAME_MAP.find? (fun p => p.1 = c) with
      | some p => p.2
      | none => c) := rfl
  rw [e6, e5, e4, e3, er, c1]
  decide

theorem getq_zipWith {α β γ : Type} (f : α → β → γ) (l1 : List α) (l2 : List β) (i : Nat) :
    (List.zipWith f l1 l2)[i]? = (l1[i]?).bind (fun a => (l2[i]?).map (f a)) := by
  induction l1 generalizing l2 i with
  | nil => simp
  | cons a as ih =>
    cases l2 with
    | nil => simp
    | cons b bs =>
      cases i with
      | zero => simp
      | succ n => simpa using ih bs n

theorem findIdx?_prop {α : Type} {p : α → Bool} {l : List α} {i : Nat}
    (h : l.findIdx? p = some i) : ∃ x, l[i]? = some x ∧ p x = true := by
  induction l generalizing i with
  | nil => simp [List.findIdx?] at h
  | cons a as ih =>
    rw [List.findIdx?_cons] at h
    by_cases hp : p a
    · rw [if_pos hp] at h
      cases h
      exact ⟨a, by simp, hp⟩
    · rw [if_neg hp] at h
      cases i with
      | zero => simp at h
      | succ n =>
        obtain ⟨x, hx, hpx⟩ := ih (by simpa using h)
        exact ⟨x, by simpa using hx, hpx⟩

theorem getCell_of_findIdx {cols : List String} {c : String} {k : Nat} (r : Row)
    (hk : cols.findIdx? (· = c) = some k) : getCell cols r c = (r[k]?).join := by
  unfold getCell
  rw [hk]

theorem getCell_of_notFound {cols : List String} {c : String} (r : Row)
    (hk : cols.findIdx? (· = c) = none) : getCell cols r c = none := by
  unfold getCell
  rw [hk]

/-- Cells of column `c` are floats-or-null in every row (positional form). -/
def FloatCol (df : Frame) (c : String) : Prop :=
  ∀ (i : Nat) (r : Row), df.rows[i]? = some r →
    ∀ v, getCell df.cols r c = some v → ∃ f, v = Val.flt f

theorem to_float_establishes {df out : Frame} {c : String}
    (h : to_float df c = .ok out) : FloatCol out c := by
  obtain ⟨hcontains, hout⟩ := to_float_ok h
  subst hout
  obtain ⟨j, hj⟩ := findIdx?_of_contains hcontains
  intro i r2 hr2 v hv
  rw [setCol_cols hcontains, getCell_of_findIdx _ hj] at hv
  have hrows : (setCol c ((getColVals df c).map floatCellConv) df).rows
      = List.zipWith (fun r v => r.set j v) df.rows ((getColVals df c).map floatCellConv) := by
    unfold setCol
    rw [hj]
  rw [hrows, getq_zipWith] at hr2
  cases hr : df.rows[i]? with
  | none => rw [hr] at hr2; cases hr2
  | some r =>
    rw [hr] at hr2
    cases hv2 : ((getColVals df c).map floatCellConv)[i]? with
    | none => rw [hv2] at hr2; cases hr2
    | some v2 =>
      rw [hv2] at hr2
      cases hr2
      have hv2' : v2 = floatCellConv (getCell df.cols r c) := by
        simp only [getColVals, List.getElem?_map, hr] at hv2
        cases hv2
        rfl
      by_cases hjr : j < r.length
      · rw [List.getElem?_set_eq_of_lt _ hjr] at hv
        have hsome : v2 = some v := by
          cases hv2b : v2 with
          | none => rw [hv2b] at hv; cases hv
          | some w => rw [hv2b] at hv; cases hv; rfl
        rw [hv2'] at hsome
        cases hcell : getCell df.cols r c with
        | none =>
          rw [hcell] at hsome
          cases hsome
        | some w =>
          rw [hcell] at hsome
          cases w with
          | str s =>
            have hsome2 : (parsePyFloat (commaToDot s)).map Val.flt = some v := hsome
            cases hp : parsePyFloat (commaToDot s) with
            | none => rw [hp] at hsome2; cases hsome2
            | some f =>
              rw [hp] at hsome2
              cases hsome2
              exact ⟨f, rfl⟩
          | flt f => cases hsome
          | ts t => cases hsome
          | pt a b => cases hsome
          | box a b cc dd => cases hsome
          | idx n => cases hsome
      · have hge : r.length ≤ j := by omega
        simp [List.set_eq_of_length_le hge, List.getElem?_eq_none hge] at hv

theorem to_float_preserves {df out : Frame} {c c2 : String} (hne : c ≠ c2)
    (h : to_float df c2 = .ok out) (hP : FloatCol df c) : FloatCol out c := by
  obtain ⟨hcontains, hout⟩ := to_float_ok h
  subst hout
  obtain ⟨j, hj⟩ := findIdx?_of_contains hcontains
  obtain ⟨cj, hcj, hpj⟩ := findIdx?_prop hj
  have hpj2 : cj = c2 := by simpa using hpj
  rw [hpj2] at hcj
  intro i r2 hr2 v hv
  rw [setCol_cols hcontains] at hv
  have hrows : (setCol c2 ((getColVals df c2).map floatCellConv) df).rows
      = List.zipWith (fun r v => r.set j v) df.rows ((getColVals df c2).map floatCellConv) := by
    unfold setCol
    rw [hj]
  rw [hrows, getq_zipWith] at hr2
  cases hr : df.rows[i]? with
  | none => rw [hr] at hr2; cases hr2
  | some r =>
    rw [hr] at hr2
    cases hv2 : ((getColVals df c2).map floatCellConv)[i]? with
    | none => rw [hv2] at hr2; cases hr2
    | some v2 =>
      rw [hv2] at hr2
      cases hr2
      cases hk : df.cols.findIdx? (· = c) with
      | none =>
        rw [getCell_of_notFound _ hk] at hv
        cases hv
      | some k =>
        obtain ⟨x, hx, hpx⟩ := findIdx?_prop hk
        have hxc : x = c := by simpa using hpx
        subst hxc
        have hkj : k ≠ j := by
          intro heq
          subst heq
          rw [hx] at hcj
          cases hcj
          exact hne rfl
        rw [getCell_of_findIdx _ hk] at hv
        have hbeta : ((fun r v => r.set j v) r v2)[k]? = r[k]? :=
          List.getElem?_set_ne (Ne.symm hkj)
        rw [hbeta] at hv
        exact hP i r hr v (by rw [getCell_of_findIdx _ hk]; exact hv)

/-! ## Claim C1 — `fill_missing_speed` on mapped, non-null and unmapped codes -/

/-- Three-row frame: null speed with unmapped code "9", null speed with mapped
code "3", non-null speed "50". -/
def spdLimitExample : Frame :=
  ⟨["spd_limit", "tipo_via_ctb"],
   [[none, some (.str "9")], [none, some (.str "3")], [some (.str "50"), some (.str "3")]],
   some 4674⟩

/-- C1: evaluation of `fill_missing_speed` at the failing input.  A null
`spd_limit` with mapped code "3" becomes "40" and a non-null "50" is kept, as
the claim states; but a null `spd_limit` with the unmapped code "9" becomes the
string "9" instead of staying null: `Series.replace` leaves unmapped values as
themselves, so `fillna` copies the road-type code into the speed column. -/
theorem fill_missing_speed_unmapped_code_eval :
    fill_missing_speed spdLimitExample =
      .ok ⟨["spd_limit", "tipo_via_ctb"],
        [[some (.str "9"), some (.str "9")], [some (.str "40"), some (.str "3")],
         [some (.str "50"), some (.str "3")]],
        some 4674⟩ := by
  rfl

/-! ## Claim C2 — canonical output columns and the `nome_bairro` mismatch -/

/-- A raw telemetry frame satisfying the upstream schema (all twelve source
columns, decimal-comma numerals, `DD/MM/YYYY` date, `HH:MM:SS` time). -/
def rawTelemetry : Frame :=
  ⟨["DRIVER", "LONG", "LAT", "DAY", "TRIP", "ID", "PR", "TIME_ACUM",
    "SPD_KMH", "VALID_TIME", "TIMESTAMP", "ACEL_MS2"],
   [[some (.str "A"), some (.str "-49,2"), some (.str "-25,4"), some (.str "31/12/2020"),
     some (.str "1"), some (.str "P1"), some (.str "23:59:59"), some (.str "10"),
     some (.str "50,5"), some (.str "Yes"), some (.str "x"), some (.str "0,1")]],
   none⟩

/-- A raw neighbourhood layer as `gpd.read_file` returns it (field `NOME`),
with a polygon containing the telemetry point. -/
def rawBairrosLayer : Frame :=
  ⟨["OBJECTID", "NOME", "geometry"],
   [[some (.str "1"), some (.str "CENTRO"),
     some (.box (Q.ofInt (-50)) (Q.ofInt (-26)) (Q.ofInt (-49)) (Q.ofInt (-25)))]],
   some 4674⟩

/-- A raw municipal street layer (fields `NMVIA`, `SVIARIO`, `HIERARQUIA`)
with a street at the telemetry point. -/
def rawViasLayer : Frame :=
  ⟨["NMVIA", "SVIARIO", "HIERARQUIA", "geometry"],
   [[some (.str "RUA X"), some (.str "COLETORA"), some (.str "3"),
     some (.pt ⟨-246, 5⟩ ⟨-127, 5⟩)]],
   some 4674⟩

/-- A raw OSM street layer (field `maxspeed`) with a street at the point. -/
def rawOsmLayer : Frame :=
  ⟨["maxspeed", "geometry"],
   [[some (.str "40"), some (.pt ⟨-246, 5⟩ ⟨-127, 5⟩)]],
   some 4674⟩

/-- The pipeline of `main.py` up to and including `fill_missing_speed`,
on the example inputs (every step succeeds, so the `getD` default is unused). -/
def filledExample : Frame :=
  ((do
    let bairros ← load_bairros rawBairrosLayer
    let vias ← load_vias_cwb rawViasLayer
    let osm ← import_osm_table rawOsmLayer
    let cleaned ← clean_cols rawTelemetry
    let withdt ← create_datetime "date" "time" cleaned
    let spatial := create_spatial_data withdt
    let j1 := join_bairros_data spatial bairros
    let j2 := join_vias_data j1 vias
    let j3 := join_vias_data j2 osm
    fill_missing_speed j3 : Except String Frame)).toOption.getD ⟨[], [], none⟩

/-- C2: evaluation at a schema-conforming input.  The pipeline's frame right
before the reorder carries the neighbourhood name under the column `bairro`
(the rename target in `utils.load_bairros`), not `nome_bairro`; `fix_col_order`
selects `nome_bairro` and therefore raises `KeyError`, so the promised
17-column output is never produced.  The last conjunct shows the reorder does
succeed, with exactly the canonical column sequence, on a frame that carries
all seventeen expected labels. -/
theorem pipeline_nome_bairro_keyerror :
    filledExample.cols.contains "bairro" = true
    ∧ filledExample.cols.contains "nome_bairro" = false
    ∧ getCell filledExample.cols (filledExample.rows.headD []) "bairro" = some (.str "CENTRO")
    ∧ fix_col_order filledExample = .error "KeyError"
    ∧ (fix_col_order ⟨"datetime" :: COLS17, [], some 4674⟩ =
        .ok ⟨COLS17, [], some 4674⟩) := by
  exact ⟨by rfl, by rfl, by rfl, by rfl, by rfl⟩

/-! ## Claim C5 — nearest-street join radius and CRS round-trip -/

/-- C5: in `join_vias_data` (whose `sjoin_nearest` bound is `max_distance=20`
in the projected system the inputs are reprojected to), a point at distance 19
from the street — squared distance 361 — receives the street's attributes,
and a point at distance 21 — squared distance 441 — receives null street
attributes; the result frame is reprojected back to the geographic CRS 4674. -/
theorem join_vias_max_distance_threshold (nm : String) (ax ay bx byy sx sy : Int)
    (h19 : (ax - sx) * (ax - sx) + (ay - sy) * (ay - sy) = 361)
    (h21 : (bx - sx) * (bx - sx) + (byy - sy) * (byy - sy) = 441) :
    join_vias_data
      ⟨["geometry"], [[some (.pt (Q.ofInt ax) (Q.ofInt ay))],
                      [some (.pt (Q.ofInt bx) (Q.ofInt byy))]], some 4674⟩
      ⟨["nome_via", "geometry"], [[some (.str nm), some (.pt (Q.ofInt sx) (Q.ofInt sy))]], some 4674⟩
    = ⟨["geometry", "nome_via"],
       [[some (.pt (Q.ofInt ax) (Q.ofInt ay)), some (.str nm)],
        [some (.pt (Q.ofInt bx) (Q.ofInt byy)), none]], some 4674⟩ := by
  unfold join_vias_data sjoin_nearest_left dropCol to_crs
  simp [nearCands, minCandDist, nonGeom, suffixCols, getCell, sqDist, Q.sub, Q.mul, Q.add,
    Q.le, Q.eqv, Q.ofInt, Q.minv, h19, h21]

/-- Witness for C5 at the concrete points `(19, 0)`, `(21, 0)` and street `(0, 0)`. -/
theorem join_vias_max_distance_threshold_witness :
    ((19 - 0 : Int) * (19 - 0) + (0 - 0) * (0 - 0) = 361)
    ∧ ((21 - 0 : Int) * (21 - 0) + (0 - 0) * (0 - 0) = 441)
    ∧ join_vias_data
        ⟨["geometry"], [[some (.pt (Q.ofInt 19) (Q.ofInt 0))],
                        [some (.pt (Q.ofInt 21) (Q.ofInt 0))]], some 4674⟩
        ⟨["nome_via", "geometry"],
         [[some (.str "RUA A"), some (.pt (Q.ofInt 0) (Q.ofInt 0))]], some 4674⟩
      = ⟨["geometry", "nome_via"],
         [[some (.pt (Q.ofInt 19) (Q.ofInt 0)), some (.str "RUA A")],
          [some (.pt (Q.ofInt 21) (Q.ofInt 0)), none]], some 4674⟩ :=
  ⟨by decide, by decide,
    join_vias_max_distance_threshold "RUA A" 19 0 21 0 0 0 (by decide) (by decide)⟩

/-! ## Claim C7 — the cleaned `long`/`lat` columns -/

/-- A schema-conforming raw frame whose `LONG` value is the string "inf",
which `float` parses to a non-finite value. -/
def rawInfTelemetry : Frame :=
  ⟨["DRIVER", "LONG", "LAT", "DAY", "TRIP", "ID", "PR", "TIME_ACUM",
    "SPD_KMH", "VALID_TIME", "TIMESTAMP", "ACEL_MS2"],
   [[some (.str "A"), some (.str "inf"), some (.str "1,5"), some (.str "31/12/2020"),
     some (.str "1"), some (.str "P1"), some (.str "23:59:59"), some (.str "10"),
     some (.str "2"), some (.str "Yes"), some (.str "x"), some (.str "3")]],
   none⟩

/-- The cleaner's output at `rawInfTelemetry`. -/
def cleanedInf : Frame :=
  ⟨["driver", "long", "lat", "date", "trip", "id", "time", "time_acum", "spd_kmh",
    "valid_time", "TIMESTAMP", "acel_ms2"],
   [[some (.str "A"), some (.flt .posInf), some (.flt (.finite ⟨15, 10⟩)),
     some (.str "31/12/2020"), some (.str "1"), some (.str "P1"), some (.str "23:59:59"),
     some (.str "10"), some (.flt (.finite ⟨2, 1⟩)), some (.str "Yes"), some (.str "x"),
     some (.flt (.finite ⟨3, 1⟩))]],
   none⟩

/-- C7 counterexample: it is not true that every cleaned row carries finite
floats in `long` and `lat` — the input `LONG="inf"` cleans successfully to the
non-finite float `inf` (and a missing value would likewise clean to NaN). -/
theorem clean_cols_long_not_always_finite :
    ¬ (∀ df out, clean_cols df = .ok out → ∀ r ∈ out.rows,
        (∃ q, getCell out.cols r "long" = some (.flt (.finite q)))
        ∧ (∃ q, getCell out.cols r "lat" = some (.flt (.finite q)))) := by
  intro hclaim
  have hok : clean_cols rawInfTelemetry = .ok cleanedInf := by rfl
  have hmem : cleanedInf.rows.headD [] ∈ cleanedInf.rows := by decide
  obtain ⟨⟨q, hq⟩, h2⟩ := hclaim rawInfTelemetry cleanedInf hok (cleanedInf.rows.headD []) hmem
  have hcomp : getCell cleanedInf.cols (cleanedInf.rows.headD []) "long"
      = some (.flt .posInf) := by rfl
  rw [hcomp] at hq
  simp at hq

/-- C7 as amended: after a successful `clean_cols`, every present `long`/`lat`
cell is a parsed float value (possibly non-finite), never a string — in
particular no decimal-comma string survives the coercion. -/
theorem clean_cols_long_lat_float_or_null (df out : Frame) (h : clean_cols df = .ok out) :
    ∀ r ∈ out.rows, ∀ c, (c = "long" ∨ c = "lat") →
      ∀ v, getCell out.cols r c = some v → ∃ f, v = Val.flt f := by
  unfold clean_cols at h
  obtain ⟨d1, h1, h⟩ := except_bind_ok h
  obtain ⟨d3, h3, h⟩ := except_bind_ok h
  obtain ⟨d4, h4, h⟩ := except_bind_ok h
  obtain ⟨d5, h5, h⟩ := except_bind_ok h
  obtain ⟨d6, h6, h⟩ := except_bind_ok h
  have hpure : d6 = out := by simpa [Pure.pure, Except.pure] using h
  subst hpure
  have hlong : FloatCol d6 "long" :=
    to_float_preserves (by decide) h6 (to_float_preserves (by decide) h5
      (to_float_preserves (by decide) h4 (to_float_establishes h3)))
  have hlat : FloatCol d6 "lat" :=
    to_float_preserves (by decide) h6 (to_float_preserves (by decide) h5
      (to_float_establishes h4))
  intro r hr c hc v hv
  obtain ⟨i, hi⟩ := List.mem_iff_getElem?.mp hr
  rcases hc with rfl | rfl
  · exact hlong i r hi v hv
  · exact hlat i r hi v hv

/-- A raw frame with decimal-comma numerals, for the amended-C7 witness. -/
def rawDecimalComma : Frame :=
  ⟨["DRIVER", "LONG", "LAT", "DAY", "TRIP", "ID", "PR", "TIME_ACUM",
    "SPD_KMH", "VALID_TIME", "TIMESTAMP", "ACEL_MS2"],
   [[some (.str "B"), some (.str "-1,25"), some (.str "0,5"), some (.str "01/01/2021"),
     some (.str "2"), some (.str "P2"), some (.str "00:00:01"), some (.str "5"),
     some (.str "7,5"), some (.str "No"), some (.str "y"), some (.str "0")]], none⟩

/-- The cleaner's output at `rawDecimalComma`. -/
def cleanedDecimalComma : Frame :=
  ⟨["driver", "long", "lat", "date", "trip", "id", "time", "time_acum",
    "spd_kmh", "valid_time", "TIMESTAMP", "acel_ms2"],
   [[some (.str "B"), some (.flt (.finite ⟨-125, 100⟩)), some (.flt (.finite ⟨5, 10⟩)),
     some (.str "01/01/2021"), some (.str "2"), some (.str "P2"), some (.str "00:00:01"),
     some (.str "5"), some (.flt (.finite ⟨75, 10⟩)), some (.str "No"), some (.str "y"),
     some (.flt (.finite ⟨0, 1⟩))]], none⟩

/-- Witness for the amended C7 at a concrete decimal-comma input. -/
theorem clean_cols_long_lat_float_or_null_witness :
    clean_cols rawDecimalComma = .ok cleanedDecimalComma
    ∧ (∀ r ∈ cleanedDecimalComma.rows, ∀ c, (c = "long" ∨ c = "lat") →
        ∀ v, getCell cleanedDecimalComma.cols r c = some v → ∃ f, v = Val.flt f) :=
  ⟨by rfl, clean_cols_long_lat_float_or_null rawDecimalComma cleanedDecimalComma (by rfl)⟩

/-! ## Claim C8 — the allow-list selection of `clean_cols` -/

/-- C8: `clean_cols` fails with a `KeyError` whenever one of the twelve
allow-listed source columns is absent, and every column of a successful output
is one of the twelve selected (renamed) columns — anything outside the
allow-list has been dropped. -/
theorem clean_cols_schema (df : Frame) :
    ((∃ c ∈ COLS, df.cols.contains c = false) → clean_cols df = .error "KeyError")
    ∧ (∀ out, clean_cols df = .ok out →
        ∀ c, out.cols.contains c = true →
          c ∈ ["driver", "long", "lat", "date", "trip", "id", "time", "time_acum",
               "spd_kmh", "valid_time", "TIMESTAMP", "acel_ms2"]) := by
  constructor
  · rintro ⟨c, hc, hmiss⟩
    have hall : COLS.all (fun c => df.cols.contains c) = false := by
      rw [List.all_eq_false]
      refine ⟨c, hc, ?_⟩
      simpa using hmiss
    have hsel : select df COLS = .error "KeyError" := by
      unfold select
      rw [hall]
      simp
    unfold clean_cols
    rw [hsel]
    rfl
  · intro out hok c hc
    rw [clean_cols_ok_cols hok] at hc
    simpa using hc

/-- Witness for C8: a frame having only `DRIVER` is rejected, and on a frame
with exactly the allow-list the output columns are the canonical twelve. -/
theorem clean_cols_schema_witness :
    (∃ c ∈ COLS, (⟨["DRIVER"], [], none⟩ : Frame).cols.contains c = false)
    ∧ clean_cols ⟨["DRIVER"], [], none⟩ = .error "KeyError"
    ∧ clean_cols ⟨COLS, [], none⟩
        = .ok ⟨["driver", "long", "lat", "date", "trip", "id", "time", "time_acum",
            "spd_kmh", "valid_time", "TIMESTAMP", "acel_ms2"], [], none⟩
    ∧ "TIMESTAMP" ∈ ["driver", "long", "lat", "date", "trip", "id", "time", "time_acum",
        "spd_kmh", "valid_time", "TIMESTAMP", "acel_ms2"] :=
  ⟨⟨"LONG", by decide, by decide⟩,
   (clean_cols_schema ⟨["DRIVER"], [], none⟩).1 ⟨"LONG", by decide, by decide⟩,
   by rfl,
   (clean_cols_schema ⟨COLS, [], none⟩).2
     ⟨["driver", "long", "lat", "date", "trip", "id", "time", "time_acum",
       "spd_kmh", "valid_time", "TIMESTAMP", "acel_ms2"], [], none⟩ (by rfl)
     "TIMESTAMP" (by decide)⟩

/-! ## Claim C9 — `TIMESTAMP` is selected but never renamed -/

/-- C9: a successful `clean_cols` output has exactly the canonical column list,
in which `TIMESTAMP` still appears in its original uppercase form (it is absent
from the rename mapping), while every other column is a lowercase rename
target. -/
theorem clean_cols_timestamp_unrenamed (df out : Frame) (h : clean_cols df = .ok out) :
    out.cols = ["driver", "long", "lat", "date", "trip", "id", "time", "time_acum",
      "spd_kmh", "valid_time", "TIMESTAMP", "acel_ms2"]
    ∧ out.cols.contains "TIMESTAMP" = true
    ∧ (∀ c ∈ out.cols, c ≠ "TIMESTAMP" → c ∈ RENAME_MAP.map (fun p => p.2)) := by
  have hc := clean_cols_ok_cols h
  refine ⟨hc, by rw [hc]; decide, ?_⟩
  intro c hcmem hne
  rw [hc] at hcmem
  simp only [List.mem_cons, List.not_mem_nil, or_false] at hcmem
  rcases hcmem with rfl | rfl | rfl | rfl | rfl | rfl | rfl | rfl | rfl | rfl | rfl | rfl
  all_goals first
    | exact absurd rfl hne
    | decide

/-- Witness for C9 on a frame with exactly the allow-listed columns. -/
theorem clean_cols_timestamp_unrenamed_witness :
    clean_cols ⟨COLS, [[some (.str "d"), some (.str "1"), some (.str "2"),
        some (.str "02/02/2022"), some (.str "t"), some (.str "i"), some (.str "03:04:05"),
        some (.str "9"), some (.str "8"), some (.str "v"), some (.str "ts"),
        some (.str "7")]], none⟩
      = .ok ⟨["driver", "long", "lat", "date", "trip", "id", "time", "time_acum",
          "spd_kmh", "valid_time", "TIMESTAMP", "acel_ms2"],
        [[some (.str "d"), some (.flt (.finite ⟨1, 1⟩)), some (.flt (.finite ⟨2, 1⟩)),
          some (.str "02/02/2022"), some (.str "t"), some (.str "i"), some (.str "03:04:05"),
          some (.str "9"), some (.flt (.finite ⟨8, 1⟩)), some (.str "v"), some (.str "ts"),
          some (.flt (.finite ⟨7, 1⟩))]], none⟩
    ∧ (⟨["driver", "long", "lat", "date", "trip", "id", "time", "time_acum",
        "spd_kmh", "valid_time", "TIMESTAMP", "acel_ms2"], [],
        none⟩ : Frame).cols.contains "TIMESTAMP" = true
    ∧ (Frame.cols ⟨["driver", "long", "lat", "date", "trip", "id", "time", "time_acum",
        "spd_kmh", "valid_time", "TIMESTAMP", "acel_ms2"], [], none⟩
        = ["driver", "long", "lat", "date", "trip", "id", "time", "time_acum",
           "spd_kmh", "valid_time", "TIMESTAMP", "acel_ms2"]) :=
  ⟨by rfl,
   (clean_cols_timestamp_unrenamed ⟨COLS, [], none⟩
     ⟨["driver", "long", "lat", "date", "trip", "id", "time", "time_acum",
       "spd_kmh", "valid_time", "TIMESTAMP", "acel_ms2"], [], none⟩ (by rfl)).2.1,
   (clean_cols_timestamp_unrenamed ⟨COLS, [], none⟩
     ⟨["driver", "long", "lat", "date", "trip", "id", "time", "time_acum",
       "spd_kmh", "valid_time", "TIMESTAMP", "acel_ms2"], [], none⟩ (by rfl)).1⟩

/-! ## Claim C10 — `fill_missing_speed` touches only `spd_limit` -/

/-- C10: a successful `fill_missing_speed` keeps the header, the CRS and the
row count; in every row each cell outside `spd_limit` is unchanged, and a
non-null `spd_limit` cell keeps its exact prior value. -/
theorem fill_missing_speed_frame (df out : Frame) (h : fill_missing_speed df = .ok out) :
    out.cols = df.cols ∧ out.crs = df.crs ∧ out.rows.length = df.rows.length
    ∧ ∀ (i : Nat) (r : Row), df.rows[i]? = some r → ∃ r2, out.rows[i]? = some r2
        ∧ (∀ c, c ≠ "spd_limit" → getCell out.cols r2 c = getCell df.cols r c)
        ∧ (∀ v, getCell df.cols r "spd_limit" = some v →
            getCell out.cols r2 "spd_limit" = some v) := by
  unfold fill_missing_speed at h
  split at h
  case isFalse => cases h
  case isTrue hb =>
    cases h
    have hcontains : df.cols.contains "spd_limit" = true := by
      have := hb
      simp only [Bool.and_eq_true] at this
      exact this.1
    obtain ⟨j, hj⟩ := findIdx?_of_contains hcontains
    obtain ⟨cj, hcj, hpj⟩ := findIdx?_prop hj
    have hpj2 : cj = "spd_limit" := by simpa using hpj
    subst hpj2
    set vals := List.zipWith fillSpdCell (getColVals df "spd_limit")
      (getColVals df "tipo_via_ctb") with hvals
    have hsetcols : (setCol "spd_limit" vals df).cols = df.cols := setCol_cols hcontains
    have hsetrows : (setCol "spd_limit" vals df).rows
        = List.zipWith (fun r v => r.set j v) df.rows vals := by
      unfold setCol
      rw [hj]
    refine ⟨hsetcols, ?_, ?_, ?_⟩
    · unfold setCol
      rw [hj]
    · rw [hsetrows, List.length_zipWith, hvals]
      simp [getColVals]
    · intro i r hr
      have hv : vals[i]? = some (fillSpdCell (getCell df.cols r "spd_limit")
          (getCell df.cols r "tipo_via_ctb")) := by
        rw [hvals, getq_zipWith]
        simp [getColVals, hr]
      refine ⟨r.set j (fillSpdCell (getCell df.cols r "spd_limit")
          (getCell df.cols r "tipo_via_ctb")), ?_, ?_, ?_⟩
      · rw [hsetrows, getq_zipWith, hr, hv]
        rfl
      · intro c hc
        rw [hsetcols]
        cases hk : df.cols.findIdx? (· = c) with
        | none =>
          rw [getCell_of_notFound _ hk, getCell_of_notFound _ hk]
        | some k =>
          obtain ⟨x, hx, hpx⟩ := findIdx?_prop hk
          have hxc : x = c := by simpa using hpx
          subst hxc
          have hkj : k ≠ j := by
            intro heq
            subst heq
            rw [hx] at hcj
            cases hcj
            exact hc rfl
          rw [getCell_of_findIdx _ hk, getCell_of_findIdx _ hk,
            List.getElem?_set_ne (Ne.symm hkj)]
      · intro v hvv
        rw [hsetcols]
        have hrj : r[j]? = some (some v) := by
          rw [getCell_of_findIdx r hj] at hvv
          cases hrj : r[j]? with
          | none => rw [hrj] at hvv; cases hvv
          | some o =>
            rw [hrj] at hvv
            cases o with
            | none => cases hvv
            | some w => cases hvv; rfl
        have hjlt : j < r.length := by
          by_contra hge
          rw [List.getElem?_eq_none (by omega)] at hrj
          cases hrj
        rw [getCell_of_findIdx _ hj, List.getElem?_set_eq_of_lt _ hjlt]
        have hcell : getCell df.cols r "spd_limit" = some v := by
          rw [getCell_of_findIdx r hj, hrj]
          rfl
        rw [hcell]
        rfl

/-- Witness for C10 at a three-column frame with a null speed and a mapped
road type: the other two cells survive unchanged. -/
theorem fill_missing_speed_frame_witness :
    fill_missing_speed ⟨["spd_limit", "tipo_via_ctb", "nome_via"],
        [[none, some (.str "3"), some (.str "RUA B")]], some 4674⟩
      = .ok ⟨["spd_limit", "tipo_via_ctb", "nome_via"],
        [[some (.str "40"), some (.str "3"), some (.str "RUA B")]], some 4674⟩
    ∧ (Frame.cols ⟨["spd_limit", "tipo_via_ctb", "nome_via"],
        [[some (.str "40"), some (.str "3"), some (.str "RUA B")]], some 4674⟩
        = Frame.cols ⟨["spd_limit", "tipo_via_ctb", "nome_via"],
        [[none, some (.str "3"), some (.str "RUA B")]], some 4674⟩
       ∧ Frame.crs ⟨["spd_limit", "tipo_via_ctb", "nome_via"],
        [[some (.str "40"), some (.str "3"), some (.str "RUA B")]], some 4674⟩
        = Frame.crs ⟨["spd_limit", "tipo_via_ctb", "nome_via"],
        [[none, some (.str "3"), some (.str "RUA B")]], some 4674⟩
       ∧ (Frame.rows ⟨["spd_limit", "tipo_via_ctb", "nome_via"],
        [[some (.str "40"), some (.str "3"), some (.str "RUA B")]], some 4674⟩).length
        = (Frame.rows ⟨["spd_limit", "tipo_via_ctb", "nome_via"],
        [[none, some (.str "3"), some (.str "RUA B")]], some 4674⟩).length
       ∧ ∀ (i : Nat) (r : Row),
          (Frame.rows ⟨["spd_limit", "tipo_via_ctb", "nome_via"],
            [[none, some (.str "3"), some (.str "RUA B")]], some 4674⟩)[i]? = some r →
          ∃ r2, (Frame.rows ⟨["spd_limit", "tipo_via_ctb", "nome_via"],
            [[some (.str "40"), some (.str "3"), some (.str "RUA B")]], some 4674⟩)[i]?
              = some r2
            ∧ (∀ c, c ≠ "spd_limit" →
                getCell ["spd_limit", "tipo_via_ctb", "nome_via"] r2 c
                  = getCell ["spd_limit", "tipo_via_ctb", "nome_via"] r c)
            ∧ (∀ v, getCell ["spd_limit", "tipo_via_ctb", "nome_via"] r "spd_limit" = some v →
                getCell ["spd_limit", "tipo_via_ctb", "nome_via"] r2 "spd_limit" = some v)) :=
  ⟨by rfl, fill_missing_speed_frame _ _ (by rfl)⟩

/-! ## Claim C4 — totality of the neighbourhood join -/

/-- Number of polygon rows of `bairros` containing the point row `r`. -/
def countContaining (bairros : Frame) (ptsCols : List String) (r : Row) : Nat :=
  (matchesContains bairros ptsCols r).length

theorem sjoin_contains_right_length (left right : Frame) :
    (sjoin_contains_right left right).rows.length
      = (right.rows.map (fun r => max 1 (countContaining left right.cols r))).sum := by
  unfold sjoin_contains_right
  rw [List.length_bind]
  congr 1
  rw [List.map_eq_map_iff]
  intro r hr
  simp only [Function.comp]
  cases hm : matchesContains left right.cols r with
  | nil =>
    simp [countContaining, hm]
  | cons a as =>
    simp [countContaining, hm, Nat.max_eq_right, Nat.succ_le_iff]

theorem dropCol_rows_length (c : String) (df : Frame) :
    (dropCol c df).rows.length = df.rows.length := by
  unfold dropCol
  cases df.cols.findIdx? (· = c) with
  | none => rfl
  | some i => simp

theorem sjoin_contains_right_rows_retag (b nds : Frame) (c : Option Int) :
    (sjoin_contains_right { b with crs := c } nds).rows
      = (sjoin_contains_right b nds).rows := rfl

theorem join_bairros_rowcount (nds bairros : Frame) :
    (join_bairros_data nds bairros).rows.length
      = (nds.rows.map (fun r => max 1 (countContaining bairros nds.cols r))).sum := by
  unfold join_bairros_data
  rw [dropCol_rows_length]
  by_cases hcrs : nds.crs ≠ bairros.crs
  · rw [if_pos hcrs]
    have h1 := sjoin_contains_right_length { bairros with crs := nds.crs } nds
    rw [h1]
    rfl
  · rw [if_neg hcrs]
    exact sjoin_contains_right_length bairros nds

theorem erase_last_append {α : Type} (r : List α) (x : α) :
    (r ++ [x]).eraseIdx r.length = r := by
  induction r with
  | nil => rfl
  | cons a as ih => simpa using ih

theorem findIdx?_none_of_not_contains {l : List String} {c : String}
    (h : l.contains c = false) : l.findIdx? (· = c) = none := by
  rw [List.findIdx?_eq_none_iff]
  intro x hx
  by_cases hxc : x = c
  · subst hxc
    have h2 : l.contains x = true := by
      simpa using hx
    rw [h2] at h
    cases h
  · simpa using hxc

theorem suffixCols_nil (l : List String) (suf : String) : suffixCols l [] suf = l := by
  unfold suffixCols
  simp

theorem join_bairros_unmatched (nds bairros : Frame)
    (hbc : bairros.cols = ["bairro", "geometry"])
    (hnb : nds.cols.contains "bairro" = false)
    (hni : nds.cols.contains "index_left" = false)
    (r : Row) (hr : r ∈ nds.rows)
    (hcnt : countContaining bairros nds.cols r = 0)
    (hlen : r.length = nds.cols.length) :
    ((none : Option Val) :: r) ∈ (join_bairros_data nds bairros).rows
    ∧ getCell (join_bairros_data nds bairros).cols ((none : Option Val) :: r) "bairro"
        = none := by
  have hjb : join_bairros_data nds bairros
      = dropCol "index_left" (sjoin_contains_right
          (if nds.crs ≠ bairros.crs then { bairros with crs := nds.crs } else bairros) nds) :=
    rfl
  rw [hjb]
  set b := if nds.crs ≠ bairros.crs then { bairros with crs := nds.crs } else bairros with hb
  have hbcols : b.cols = ["bairro", "geometry"] := by
    rw [hb]
    split
    · simpa using hbc
    · exact hbc
  have hmnil : matchesContains b nds.cols r = [] := by
    have hmatch : matchesContains b nds.cols r = matchesContains bairros nds.cols r := by
      rw [hb]
      split
      · rfl
      · rfl
    rw [hmatch]
    have := hcnt
    unfold countContaining at this
    exact List.length_eq_zero.mp this
  have hlng : nonGeom b.cols = ["bairro"] := by
    rw [hbcols]
    rfl
  have hnb2 : ¬ ("bairro" ∈ nds.cols) := by simpa using hnb
  have hcommon : (nonGeom b.cols).filter (fun c => nds.cols.contains c) = [] := by
    rw [hlng]
    simp [hnb2]
  have hcols : (sjoin_contains_right b nds).cols
      = suffixCols (nonGeom b.cols) ((nonGeom b.cols).filter (fun c => nds.cols.contains c))
          "_left"
        ++ suffixCols nds.cols ((nonGeom b.cols).filter (fun c => nds.cols.contains c))
          "_right"
        ++ ["index_left"] := rfl
  rw [hcommon, hlng, suffixCols_nil, suffixCols_nil] at hcols
  have hrows0 : (sjoin_contains_right b nds).rows
      = nds.rows.bind (fun rr =>
          match matchesContains b nds.cols rr with
          | [] => [(nonGeom b.cols).map (fun _ => (none : Option Val)) ++ rr
                    ++ [(none : Option Val)]]
          | ms => ms.map (fun p =>
              (nonGeom b.cols).map (fun c => getCell b.cols p.2 c) ++ rr
                ++ [some (Val.idx p.1)])) := rfl
  have hrowmem : ((none : Option Val) :: (r ++ [none]))
      ∈ (sjoin_contains_right b nds).rows := by
    rw [hrows0]
    rw [List.mem_bind]
    refine ⟨r, hr, ?_⟩
    rw [hmnil, hlng]
    simp
  have hidx : (sjoin_contains_right b nds).cols.findIdx? (· = "index_left")
      = some (1 + nds.cols.length) := by
    rw [hcols]
    have h1 : ("bairro" :: nds.cols).findIdx? (· = "index_left") = none := by
      apply findIdx?_none_of_not_contains
      have hni2 : ¬ ("index_left" ∈ nds.cols) := by simpa using hni
      simp [hni2]
    have hsplit : ("bairro" :: nds.cols) ++ ["index_left"]
        = ["bairro"] ++ nds.cols ++ ["index_left"] := by simp
    rw [← hsplit, List.findIdx?_append, h1]
    simp [List.findIdx?, Nat.add_comm]
  constructor
  · unfold dropCol
    rw [hidx]
    rw [List.mem_map]
    refine ⟨(none : Option Val) :: (r ++ [none]), hrowmem, ?_⟩
    rw [Nat.add_comm, List.eraseIdx_cons_succ, ← hlen, erase_last_append]
  · unfold dropCol
    rw [hidx]
    have hecols : (["bairro"] ++ nds.cols ++ ["index_left"]).eraseIdx (1 + nds.cols.length)
        = "bairro" :: nds.cols := by
      have : (["bairro"] ++ nds.cols ++ ["index_left"])
          = ("bairro" :: nds.cols) ++ ["index_left"] := by simp
      rw [this, Nat.add_comm]
      have hl : ("bairro" :: nds.cols).length = nds.cols.length + 1 := by simp
      rw [← hl, erase_last_append]
    dsimp only
    rw [hcols, hecols]
    have h0 : ("bairro" :: nds.cols).findIdx? (· = "bairro") = some 0 := by
      rw [List.findIdx?_cons]
      simp
    rw [getCell_of_findIdx _ h0]
    simp

/-- C4 counterexample inputs: one point, two nested polygons both containing
it, so the right-outer containment join duplicates the point row. -/
def overlappingBairros : Frame :=
  ⟨["bairro", "geometry"],
   [[some (.str "A"), some (.box (Q.ofInt (-1)) (Q.ofInt (-1)) (Q.ofInt 1) (Q.ofInt 1))],
    [some (.str "B"), some (.box (Q.ofInt (-2)) (Q.ofInt (-2)) (Q.ofInt 2) (Q.ofInt 2))]],
   some 4674⟩

def singlePointLayer : Frame :=
  ⟨["id", "geometry"], [[some (.str "P1"), some (.pt (Q.ofInt 0) (Q.ofInt 0))]], some 4674⟩

/-- C4 counterexample: the output row count does not equal the input point
count for every pair of inputs — a point contained in two overlapping polygons
yields two output rows. -/
theorem join_bairros_rowcount_not_always_equal :
    ¬ (∀ nds bairros : Frame,
        (join_bairros_data nds bairros).rows.length = nds.rows.length) := by
  intro h
  exact absurd (h singlePointLayer overlappingBairros) (by decide)

/-- C4 as amended: the join keeps every point row — the output has one row per
(point, containing polygon) pair and one null-extended row per unmatched point,
so its row count is the sum of `max 1 (number of containing polygons)`; the
count equals the input point count exactly when no point lies in two polygons;
and a point contained in no polygon keeps its row, with a null neighbourhood
attribute, rather than raising an error. -/
theorem join_bairros_total (nds bairros : Frame) :
    ((join_bairros_data nds bairros).rows.length
      = (nds.rows.map (fun r => max 1 (countContaining bairros nds.cols r))).sum)
    ∧ ((∀ r ∈ nds.rows, countContaining bairros nds.cols r ≤ 1) →
        (join_bairros_data nds bairros).rows.length = nds.rows.length)
    ∧ (bairros.cols = ["bairro", "geometry"] → nds.cols.contains "bairro" = false →
        nds.cols.contains "index_left" = false →
        ∀ r ∈ nds.rows, countContaining bairros nds.cols r = 0 →
          r.length = nds.cols.length →
          ((none : Option Val) :: r) ∈ (join_bairros_data nds bairros).rows
          ∧ getCell (join_bairros_data nds bairros).cols ((none : Option Val) :: r)
              "bairro" = none) := by
  refine ⟨join_bairros_rowcount nds bairros, ?_, ?_⟩
  · intro hle
    rw [join_bairros_rowcount]
    have hmap : nds.rows.map (fun r => max 1 (countContaining bairros nds.cols r))
        = nds.rows.map (fun _ => 1) := by
      rw [List.map_eq_map_iff]
      intro r hr
      have := hle r hr
      omega
    rw [hmap]
    simp
  · intro hbc hnb hni r hr hcnt hlen
    exact join_bairros_unmatched nds bairros hbc hnb hni r hr hcnt hlen

/-- C4 witness inputs: one point outside the single polygon. -/
def outsideBairros : Frame :=
  ⟨["bairro", "geometry"],
   [[some (.str "A"), some (.box (Q.ofInt 5) (Q.ofInt 5) (Q.ofInt 6) (Q.ofInt 6))]], some 4674⟩

def outsidePointLayer : Frame :=
  ⟨["id", "geometry"], [[some (.str "P2"), some (.pt (Q.ofInt 0) (Q.ofInt 0))]], some 4674⟩

/-- Witness for the amended C4: the unmatched point keeps its row, the counts
agree, and its neighbourhood attribute is null. -/
theorem join_bairros_total_witness :
    (∀ r ∈ outsidePointLayer.rows,
      countContaining outsideBairros outsidePointLayer.cols r ≤ 1)
    ∧ (join_bairros_data outsidePointLayer outsideBairros).rows.length
        = outsidePointLayer.rows.length
    ∧ (((none : Option Val) :: [some (.str "P2"), some (.pt (Q.ofInt 0) (Q.ofInt 0))])
        ∈ (join_bairros_data outsidePointLayer outsideBairros).rows
       ∧ getCell (join_bairros_data outsidePointLayer outsideBairros).cols
          ((none : Option Val) :: [some (.str "P2"), some (.pt (Q.ofInt 0) (Q.ofInt 0))])
          "bairro" = none) :=
  ⟨by decide,
   (join_bairros_total outsidePointLayer outsideBairros).2.1 (by decide),
   (join_bairros_total outsidePointLayer outsideBairros).2.2 (by decide) (by decide)
     (by decide) [some (.str "P2"), some (.pt (Q.ofInt 0) (Q.ofInt 0))] (by decide)
     (by decide) (by decide)⟩

/-! ## Claim C3 — what the second nearest-street join does to the first's columns -/

/-- C3 counterexample inputs: one point; two street sources that both carry a
`spd_limit` field, the first out of range (distance 100), the second in range
(distance 5) with value "50". -/
def ptsOneStreetless : Frame :=
  ⟨["geometry"], [[some (.pt (Q.ofInt 0) (Q.ofInt 0))]], some 4674⟩

def farSpdSource : Frame :=
  ⟨["spd_limit", "geometry"],
   [[some (.str "80"), some (.pt (Q.ofInt 100) (Q.ofInt 0))]], some 4674⟩

def nearSpdSource : Frame :=
  ⟨["spd_limit", "geometry"],
   [[some (.str "50"), some (.pt (Q.ofInt 5) (Q.ofInt 0))]], some 4674⟩

/-- C3 counterexample: the first join leaves `spd_limit` null; the second join
does find a street with the non-null value "50"; but the null is not filled in
— the join keys nothing by column name, it keeps both values under the
suffixed names `spd_limit_left`/`spd_limit_right`, and no `spd_limit` column
exists in the result at all. -/
theorem join_vias_twice_null_not_filled :
    getCell (join_vias_data ptsOneStreetless farSpdSource).cols
      ((join_vias_data ptsOneStreetless farSpdSource).rows.headD []) "spd_limit" = none
    ∧ getCell (join_vias_data (join_vias_data ptsOneStreetless farSpdSource)
          nearSpdSource).cols
        ((join_vias_data (join_vias_data ptsOneStreetless farSpdSource)
          nearSpdSource).rows.headD []) "spd_limit_right" = some (.str "50")
    ∧ (join_vias_data (join_vias_data ptsOneStreetless farSpdSource)
        nearSpdSource).cols.contains "spd_limit" = false
    ∧ ¬ (getCell (join_vias_data (join_vias_data ptsOneStreetless farSpdSource)
            nearSpdSource).cols
          ((join_vias_data (join_vias_data ptsOneStreetless farSpdSource)
            nearSpdSource).rows.headD []) "spd_limit" = some (.str "50")) :=
  ⟨by rfl, by rfl, by rfl, by decide⟩

/-- C3 as amended: the second nearest-street join never modifies any value the
first join produced — neither nulls nor non-nulls.  In the pipeline the two
sources contribute disjoint attribute columns (municipal: street name and type
codes; OSM: `spd_limit`); under that disjointness every row of the second
join's output agrees with its source row of the first join's output on every
first-join column.  (On a column-name collision the values are kept separately
under `_left`/`_right` suffixes, as the counterexample shows, not merged.) -/
theorem join_vias_preserves_left (g1 s2 : Frame) (hwf : g1.WF)
    (hdisj : ∀ c ∈ nonGeom s2.cols, g1.cols.contains c = false)
    (hidx1 : g1.cols.contains "index_right" = false)
    (hidx2 : (nonGeom s2.cols).contains "index_right" = false) :
    ∀ r2 ∈ (join_vias_data g1 s2).rows,
      ∃ r1 ∈ g1.rows,
        ∀ c, g1.cols.contains c = true →
          getCell (join_vias_data g1 s2).cols r2 c = getCell g1.cols r1 c := by
  have hg1 : (if g1.crs ≠ some 31982 then to_crs g1 31982 else g1).cols = g1.cols ∧
      (if g1.crs ≠ some 31982 then to_crs g1 31982 else g1).rows = g1.rows := by
    split
    · exact ⟨rfl, rfl⟩
    · exact ⟨rfl, rfl⟩
  have hs2 : (if s2.crs ≠ some 31982 then to_crs s2 31982 else s2).cols = s2.cols ∧
      (if s2.crs ≠ some 31982 then to_crs s2 31982 else s2).rows = s2.rows := by
    split
    · exact ⟨rfl, rfl⟩
    · exact ⟨rfl, rfl⟩
  set g1b := if g1.crs ≠ some 31982 then to_crs g1 31982 else g1 with hg1b
  set s2b := if s2.crs ≠ some 31982 then to_crs s2 31982 else s2 with hs2b
  have hjv : join_vias_data g1 s2
      = dropCol "index_right" (to_crs (sjoin_nearest_left g1b s2b (Q.ofInt 20)) 4674) := rfl
  -- the common (suffixed) columns are empty by disjointness
  have hrng : nonGeom s2b.cols = nonGeom s2.cols := by rw [hs2.1]
  have hcommon : g1b.cols.filter (fun c => (nonGeom s2b.cols).contains c) = [] := by
    rw [hg1.1, hrng]
    rw [List.filter_eq_nil]
    intro c hc
    intro hcon
    have hcmem : c ∈ nonGeom s2.cols := by simpa using hcon
    have h2 := hdisj c hcmem
    have h3 : ¬ (c ∈ g1.cols) := by simpa using h2
    exact h3 hc
  have hcols0 : (sjoin_nearest_left g1b s2b (Q.ofInt 20)).cols
      = suffixCols g1b.cols (g1b.cols.filter (fun c => (nonGeom s2b.cols).contains c)) "_left"
        ++ suffixCols (nonGeom s2b.cols)
            (g1b.cols.filter (fun c => (nonGeom s2b.cols).contains c)) "_right"
        ++ ["index_right"] := rfl
  rw [hcommon, suffixCols_nil, suffixCols_nil, hg1.1, hrng] at hcols0
  have hnotin : (g1.cols ++ nonGeom s2.cols).contains "index_right" = false := by
    have a1 : ¬ ("index_right" ∈ g1.cols) := by simpa using hidx1
    have a2 : ¬ ("index_right" ∈ nonGeom s2.cols) := by simpa using hidx2
    simp [a1, a2]
  have hfind : (g1.cols ++ nonGeom s2.cols ++ ["index_right"]).findIdx? (· = "index_right")
      = some ((g1.cols ++ nonGeom s2.cols).length) := by
    have hassoc : g1.cols ++ nonGeom s2.cols ++ ["index_right"]
        = (g1.cols ++ nonGeom s2.cols) ++ ["index_right"] := by simp
    rw [hassoc, List.findIdx?_append, findIdx?_none_of_not_contains hnotin]
    simp [List.findIdx?]
  have hrows0 : (sjoin_nearest_left g1b s2b (Q.ofInt 20)).rows
      = g1.rows.bind (fun lr =>
          let cands := nearCands g1b.cols lr s2b (Q.ofInt 20)
          match minCandDist cands with
          | none => [lr ++ (nonGeom s2b.cols).map (fun _ => (none : Option Val))
                      ++ [(none : Option Val)]]
          | some m => (cands.filter (fun t => Q.eqv t.2.2 m)).map (fun t =>
              lr ++ (nonGeom s2b.cols).map (fun c => getCell s2b.cols t.2.1 c)
                ++ [some (Val.idx t.1)])) := by
    rw [← hg1.2]
    rfl
  intro r2 hr2
  rw [hjv] at hr2
  unfold dropCol at hr2
  rw [to_crs] at hr2
  simp only [hcols0, hfind] at hr2
  rw [List.mem_map] at hr2
  obtain ⟨row0, hrow0, hr2eq⟩ := hr2
  rw [hrows0, List.mem_bind] at hrow0
  obtain ⟨lr, hlr, hrow0mem⟩ := hrow0
  have hlrlen : lr.length = g1.cols.length := hwf lr hlr
  -- row0 always has the shape lr ++ mid ++ [x] with mid of the right length
  have hshape : ∃ mid x, row0 = lr ++ (mid ++ [x]) ∧ mid.length = (nonGeom s2.cols).length := by
    dsimp only at hrow0mem
    cases hmin : minCandDist (nearCands g1b.cols lr s2b (Q.ofInt 20)) with
    | none =>
      rw [hmin] at hrow0mem
      simp only [List.mem_singleton] at hrow0mem
      refine ⟨(nonGeom s2b.cols).map (fun _ => (none : Option Val)), none, ?_, ?_⟩
      · rw [hrow0mem]
        simp
      · rw [hrng]
        simp
    | some m =>
      rw [hmin] at hrow0mem
      rw [List.mem_map] at hrow0mem
      obtain ⟨t, _, hteq⟩ := hrow0mem
      refine ⟨(nonGeom s2b.cols).map (fun c => getCell s2b.cols t.2.1 c), some (Val.idx t.1),
        ?_, ?_⟩
      · rw [← hteq]
        simp
      · rw [hrng]
        simp
  obtain ⟨mid, x, hrow0eq, hmidlen⟩ := hshape
  refine ⟨lr, hlr, ?_⟩
  intro c hcont
  obtain ⟨k, hk⟩ := findIdx?_of_contains hcont
  obtain ⟨cx, hcx, hcxp⟩ := findIdx?_prop hk
  have hklt : k < g1.cols.length := by
    by_contra hge
    rw [List.getElem?_eq_none (by omega)] at hcx
    cases hcx
  -- the column index in the joined header is the same k
  have hfindk : (g1.cols ++ nonGeom s2.cols).findIdx? (· = c) = some k := by
    rw [List.findIdx?_append, hk]
    rfl
  -- compute r2
  have hr2eq2 : r2 = lr ++ mid := by
    rw [← hr2eq, hrow0eq]
    have : lr ++ (mid ++ [x]) = (lr ++ mid) ++ [x] := by simp
    rw [this]
    have hlen2 : (g1.cols ++ nonGeom s2.cols).length = (lr ++ mid).length := by
      simp [hlrlen, hmidlen]
    rw [hlen2, erase_last_append]
  -- final column header of the join
  have hcolsfin : (join_vias_data g1 s2).cols = g1.cols ++ nonGeom s2.cols := by
    rw [hjv]
    unfold dropCol
    rw [to_crs]
    simp only [hcols0, hfind]
    have : (g1.cols ++ nonGeom s2.cols ++ ["index_right"])
        = (g1.cols ++ nonGeom s2.cols) ++ ["index_right"] := by simp
    rw [this, erase_last_append]
  rw [hcolsfin, hr2eq2, getCell_of_findIdx _ hfindk, getCell_of_findIdx _ hk,
    List.getElem?_append_left (by omega)]

/-- Witness for the amended C3 on the pipeline's column layout: the first join
has produced the municipal street attributes; the second source carries only
`spd_limit`/`geometry`. -/
theorem join_vias_preserves_left_witness :
    (⟨["geometry", "nome_via"],
      [[some (.pt (Q.ofInt 0) (Q.ofInt 0)), some (.str "RUA C")]], some 4674⟩ : Frame).WF
    ∧ (∀ r2 ∈ (join_vias_data
          ⟨["geometry", "nome_via"],
           [[some (.pt (Q.ofInt 0) (Q.ofInt 0)), some (.str "RUA C")]], some 4674⟩
          ⟨["spd_limit", "geometry"],
           [[some (.str "30"), some (.pt (Q.ofInt 1) (Q.ofInt 0))]], some 4674⟩).rows,
        ∃ r1 ∈ (⟨["geometry", "nome_via"],
            [[some (.pt (Q.ofInt 0) (Q.ofInt 0)), some (.str "RUA C")]],
            some 4674⟩ : Frame).rows,
          ∀ c, (["geometry", "nome_via"] : List String).contains c = true →
            getCell (join_vias_data
                ⟨["geometry", "nome_via"],
                 [[some (.pt (Q.ofInt 0) (Q.ofInt 0)), some (.str "RUA C")]], some 4674⟩
                ⟨["spd_limit", "geometry"],
                 [[some (.str "30"), some (.pt (Q.ofInt 1) (Q.ofInt 0))]], some 4674⟩).cols
              r2 c
              = getCell ["geometry", "nome_via"] r1 c) :=
  ⟨by decide,
   join_vias_preserves_left
     ⟨["geometry", "nome_via"],
      [[some (.pt (Q.ofInt 0) (Q.ofInt 0)), some (.str "RUA C")]], some 4674⟩
     ⟨["spd_limit", "geometry"],
      [[some (.str "30"), some (.pt (Q.ofInt 1) (Q.ofInt 0))]], some 4674⟩
     (by decide) (by decide) (by decide) (by decide)⟩

/-! ## Claim C6 — `create_datetime` parsing

The extension lemmas show that the strptime-style field parsers behave the
same on `l` as on `l ++ r` while unconsumed input remains, which lets the
concatenated `date ++ " " ++ time` string be analysed from its parts. -/

theorem p2_ext {lo hi : Nat} {l l' : List Char} {n : Nat} (r : List Char)
    (h : p2 lo hi l = some (n, l')) (hne : l' ≠ []) :
    p2 lo hi (l ++ r) = some (n, l' ++ r) := by
  match l with
  | [] => simp [p2] at h
  | [c] =>
    simp only [p2] at h
    split_ifs at h
    · cases h
      exact absurd rfl hne
  | c :: d :: rest =>
    simp only [List.cons_append, p2] at h ⊢
    split_ifs at h <;> split_ifs <;> cases h <;> rfl

theorem pYear_ext {l : List Char} {y : Nat} (r : List Char)
    (h : pYear l = some (y, [])) : pYear (l ++ r) = some (y, r) := by
  match l with
  | [] => simp [pYear] at h
  | [a] => simp [pYear] at h
  | [a, b] => simp [pYear] at h
  | [a, b, c] => simp [pYear] at h
  | a :: b :: c :: d :: rest =>
    simp only [List.cons_append, pYear] at h ⊢
    split_ifs at h with hd
    · rw [if_pos hd] at *
      cases h
      rfl

theorem parseDateCore_ext {l : List Char} {v : Nat × Nat × Nat} (r : List Char)
    (h : parseDateCore l = some (v, [])) :
    parseDateCore (l ++ r) = some (v, r) := by
  unfold parseDateCore at h ⊢
  cases h1 : p2 1 31 l with
  | none => rw [h1] at h; cases h
  | some dl =>
    obtain ⟨d, l1⟩ := dl
    rw [h1] at h
    cases l1 with
    | nil => simp at h
    | cons s1 l2 =>
      rw [p2_ext r h1 (by simp)]
      simp only [List.cons_append]
      by_cases hs1 : s1 = '/'
      case neg => simp only [if_neg hs1] at h; cases h
      case pos =>
        simp only [if_pos hs1] at h ⊢
        cases h2 : p2 1 12 l2 with
        | none => rw [h2] at h; cases h
        | some ml =>
          obtain ⟨m, l3⟩ := ml
          rw [h2] at h
          cases l3 with
          | nil => simp at h
          | cons s2 l4 =>
            rw [p2_ext r h2 (by simp)]
            simp only [List.cons_append]
            by_cases hs2 : s2 = '/'
            case neg => simp only [if_neg hs2] at h; cases h
            case pos =>
              simp only [if_pos hs2] at h ⊢
              cases h3 : pYear l4 with
              | none => rw [h3] at h; cases h
              | some yl =>
                obtain ⟨y, l5⟩ := yl
                rw [h3] at h
                by_cases hd : d ≤ daysInMonth y m
                case neg => simp only [if_neg hd] at h; cases h
                case pos =>
                  simp only [if_pos hd] at h
                  cases h
                  rw [pYear_ext r h3]
                  simp only [if_pos hd]

theorem validDate_core {d : String} (hd : validDate d = true) :
    ∃ v, parseDateCore d.toList = some (v, []) := by
  unfold validDate parseDateOnly at hd
  cases hp : parseDateCore d.toList with
  | none => rw [hp] at hd; simp at hd
  | some vl =>
    obtain ⟨v, l5⟩ := vl
    rw [hp] at hd
    cases l5 with
    | nil => exact ⟨v, rfl⟩
    | cons a b => simp at hd

/-- Parsing the concatenation `d ++ " " ++ t` with the full format succeeds
exactly when `t` matches the time format, provided `d` matches the date
format. -/
theorem parseFull_concat (d t : String) (hd : validDate d = true) :
    (parseFull (d ++ " " ++ t)).isSome = validTime t := by
  obtain ⟨v, hv⟩ := validDate_core hd
  have htl : (d ++ " " ++ t).toList = d.toList ++ (' ' :: t.toList) := by
    have h1 : (d ++ " " ++ t).toList = (d.toList ++ " ".toList) ++ t.toList := rfl
    rw [h1]
    simp
  unfold parseFull
  rw [htl, parseDateCore_ext _ hv]
  simp only [if_pos rfl]
  unfold validTime parseTimeOnly
  cases hp : parseTimeCore t.toList with
  | none => simp
  | some hl =>
    obtain ⟨hms, rest2⟩ := hl
    cases rest2 with
    | nil => simp
    | cons a b => simp

theorem getElem?_some_lt {α : Type} {l : List α} {i : Nat} {x : α}
    (h : l[i]? = some x) : i < l.length := by
  by_contra hge
  rw [List.getElem?_eq_none (by omega)] at h
  cases h

theorem getCell_some_contains {cols : List String} {r : Row} {c : String} {v : Val}
    (h : getCell cols r c = some v) : cols.contains c = true := by
  unfold getCell at h
  cases hk : cols.findIdx? (· = c) with
  | none => rw [hk] at h; cases h
  | some k =>
    obtain ⟨x, hx, hpx⟩ := findIdx?_prop hk
    have hxc : x = c := by simpa using hpx
    subst hxc
    have : x ∈ cols := List.getElem?_mem hx
    simpa using this

theorem setCol_preserve (cNew : String) {df : Frame} {c : String} (hne : c ≠ cNew)
    {vals : List (Option Val)} (hvlen : vals.length = df.rows.length)
    {i : Nat} {r : Row} (hr : df.rows[i]? = some r) (hrlen : r.length = df.cols.length) :
    ∃ r2, (setCol cNew vals df).rows[i]? = some r2
      ∧ getCell (setCol cNew vals df).cols r2 c = getCell df.cols r c
      ∧ r2.length = (setCol cNew vals df).cols.length := by
  have hilt : i < vals.length := by
    rw [hvlen]
    exact getElem?_some_lt hr
  obtain ⟨v, hv⟩ : ∃ v, vals[i]? = some v := by
    cases hv : vals[i]? with
    | none =>
      rw [List.getElem?_eq_getElem hilt] at hv
      cases hv
    | some v => exact ⟨v, rfl⟩
  unfold setCol
  cases hfind : df.cols.findIdx? (· = cNew) with
  | some j =>
    obtain ⟨xj, hxj, hpj⟩ := findIdx?_prop hfind
    have hxjc : xj = cNew := by simpa using hpj
    subst hxjc
    refine ⟨r.set j v, ?_, ?_, ?_⟩
    · rw [getq_zipWith, hr, hv]
      rfl
    · cases hk : df.cols.findIdx? (· = c) with
      | none =>
        rw [getCell_of_notFound _ hk, getCell_of_notFound _ hk]
      | some k =>
        obtain ⟨xk, hxk, hpk⟩ := findIdx?_prop hk
        have hxkc : xk = c := by simpa using hpk
        subst hxkc
        have hkj : k ≠ j := by
          intro heq
          subst heq
          rw [hxk] at hxj
          cases hxj
          exact hne rfl
        rw [getCell_of_findIdx _ hk, getCell_of_findIdx _ hk,
          List.getElem?_set_ne (Ne.symm hkj)]
    · simp [hrlen]
  | none =>
    refine ⟨r ++ [v], ?_, ?_, ?_⟩
    · rw [getq_zipWith, hr, hv]
      rfl
    · have hfind2 : (df.cols ++ [cNew]).findIdx? (· = c) = df.cols.findIdx? (· = c) := by
        rw [List.findIdx?_append]
        have : ([cNew].findIdx? (· = c)) = none := by
          simp [List.findIdx?]
          exact fun heq => absurd heq.symm hne
        rw [this]
        cases df.cols.findIdx? (· = c) <;> rfl
      cases hk : df.cols.findIdx? (· = c) with
      | none =>
        rw [getCell_of_notFound _ (by rw [hfind2]; exact hk), getCell_of_notFound _ hk]
      | some k =>
        obtain ⟨xk, hxk, hpk⟩ := findIdx?_prop hk
        have hklt : k < r.length := by
          rw [hrlen]
          exact getElem?_some_lt hxk
        rw [getCell_of_findIdx _ (by rw [hfind2]; exact hk), getCell_of_findIdx _ hk,
          List.getElem?_append_left hklt]
    · simp [hrlen]

theorem setCol_value (cNew : String) {df : Frame} {vals : List (Option Val)}
    {i : Nat} {r : Row} {v : Option Val} (hr : df.rows[i]? = some r)
    (hv : vals[i]? = some v) (hrlen : r.length = df.cols.length) :
    ∃ r2, (setCol cNew vals df).rows[i]? = some r2
      ∧ getCell (setCol cNew vals df).cols r2 cNew = v := by
  unfold setCol
  cases hfind : df.cols.findIdx? (· = cNew) with
  | some j =>
    obtain ⟨xj, hxj, hpj⟩ := findIdx?_prop hfind
    have hjlt : j < r.length := by
      rw [hrlen]
      exact getElem?_some_lt hxj
    refine ⟨r.set j v, ?_, ?_⟩
    · rw [getq_zipWith, hr, hv]
      rfl
    · rw [getCell_of_findIdx _ hfind, List.getElem?_set_eq_of_lt _ hjlt]
      rfl
  | none =>
    refine ⟨r ++ [v], ?_, ?_⟩
    · rw [getq_zipWith, hr, hv]
      rfl
    · have hfind2 : (df.cols ++ [cNew]).findIdx? (· = cNew) = some df.cols.length := by
        rw [List.findIdx?_append, findIdx?_none_of_not_contains ?hc]
        · simp [List.findIdx?]
        case hc =>
          cases hcon : df.cols.contains cNew with
          | false => rfl
          | true =>
            obtain ⟨jj, hjj⟩ := findIdx?_of_contains hcon
            rw [hjj] at hfind
            cases hfind
      rw [getCell_of_findIdx _ hfind2, ← hrlen, List.getElem?_concat_length]
      rfl

def dtExample : Frame :=
  ⟨["date", "time"], [[some (.str "31/12/2020"), some (.str "23:59:59")]], none⟩

def dtExampleOut : Frame :=
  (create_datetime "date" "time" dtExample).toOption.getD ⟨[], [], none⟩

/-- C6: on date "31/12/2020" and time "23:59:59", `create_datetime` produces
the datetime 2020-12-31T23:59:59 (concatenation with a single space, explicit
day/month/year hour/minute/second format); and on any well-formed frame, a row
whose date or time string does not match the format makes the operation fail.
-/
theorem create_datetime_spec :
    (create_datetime "date" "time" dtExample = .ok dtExampleOut
      ∧ getCell dtExampleOut.cols (dtExampleOut.rows.headD []) "datetime"
          = some (.ts ⟨2020, 12, 31, 23, 59, 59⟩))
    ∧ (∀ (df : Frame), df.WF → ∀ (i : Nat) (r : Row) (d t : String),
        df.rows[i]? = some r →
        getCell df.cols r "date" = some (.str d) →
        getCell df.cols r "time" = some (.str t) →
        ¬ (validDate d = true ∧ validTime t = true) →
        ∃ e, create_datetime "date" "time" df = .error e) := by
  constructor
  · exact ⟨by rfl, by rfl⟩
  · intro df hwf i r d t hr hdate htime hbad
    have hcd : df.cols.contains "date" = true := getCell_some_contains hdate
    have hct : df.cols.contains "time" = true := getCell_some_contains htime
    have hcb : (df.cols.contains "date" && df.cols.contains "time") = true := by
      rw [hcd, hct]
      rfl
    have hrlen : r.length = df.cols.length := hwf r (List.getElem?_mem hr)
    by_cases h1 : (List.zipWith concatCellOK (getColVals df "date")
        (getColVals df "time")).all (fun b => b) = true
    case neg =>
      refine ⟨"TypeError", ?_⟩
      unfold create_datetime
      rw [if_pos hcb, if_neg h1]
    case pos =>
      by_cases h2 : (getColVals (withConcatCol "date" "time" df) "datetime").all
          dtCellOK = true
      case neg =>
        refine ⟨"ValueError", ?_⟩
        unfold create_datetime
        rw [if_pos hcb, if_pos h1, if_neg h2]
      case pos =>
        by_cases h3 : (getColVals (withParsedCol (withConcatCol "date" "time" df))
            "date").all dateCellOK = true
        case neg =>
          refine ⟨"ValueError", ?_⟩
          unfold create_datetime
          rw [if_pos hcb, if_pos h1, if_pos h2, if_neg h3]
        case pos =>
          exfalso
          have hzlen : (List.zipWith concatCell (getColVals df "date")
              (getColVals df "time")).length = df.rows.length := by
            simp [getColVals]
          cases hvd : validDate d with
          | false =>
            -- the date column still holds the bad string at step 3
            obtain ⟨r2, hr2, hg2, hl2⟩ :=
              setCol_preserve "datetime" (by decide : "date" ≠ "datetime") hzlen hr hrlen
            have hr2b : (withConcatCol "date" "time" df).rows[i]? = some r2 := hr2
            have hg2b : getCell (withConcatCol "date" "time" df).cols r2 "date"
                = getCell df.cols r "date" := hg2
            have hl2b : r2.length = (withConcatCol "date" "time" df).cols.length := hl2
            have hmlen : ((getColVals (withConcatCol "date" "time" df) "datetime").map
                dtCellConv).length = (withConcatCol "date" "time" df).rows.length := by
              simp [getColVals]
            obtain ⟨r3, hr3, hg3, hl3⟩ :=
              setCol_preserve "datetime" (by decide : "date" ≠ "datetime") hmlen hr2b hl2b
            have hr3b : (withParsedCol (withConcatCol "date" "time" df)).rows[i]?
                = some r3 := hr3
            have hg3b : getCell (withParsedCol (withConcatCol "date" "time" df)).cols r3
                "date" = getCell (withConcatCol "date" "time" df).cols r2 "date" := hg3
            have hcell3 : getCell (withParsedCol (withConcatCol "date" "time" df)).cols r3
                "date" = some (.str d) := by
              rw [hg3b, hg2b]
              exact hdate
            have helem : (getColVals (withParsedCol (withConcatCol "date" "time" df))
                "date")[i]? = some (some (.str d)) := by
              unfold getColVals
              rw [List.getElem?_map, hr3b]
              rw [show Option.map
                  (fun r => getCell (withParsedCol (withConcatCol "date" "time" df)).cols r
                    "date") (some r3)
                = some (getCell (withParsedCol (withConcatCol "date" "time" df)).cols r3
                    "date") from rfl, hcell3]
            have hmem := List.getElem?_mem helem
            rw [List.all_eq_true] at h3
            have := h3 _ hmem
            unfold dateCellOK at this
            have hvd2 : (parseDateOnly d).isSome = true := this
            unfold validDate at hvd
            rw [hvd2] at hvd
            cases hvd
          | true =>
            cases hvt : validTime t with
            | true => exact hbad ⟨hvd, hvt⟩
            | false =>
              have hdv : (getColVals df "date")[i]? = some (some (.str d)) := by
                unfold getColVals
                rw [List.getElem?_map, hr]
                simp [hdate]
              have htv : (getColVals df "time")[i]? = some (some (.str t)) := by
                unfold getColVals
                rw [List.getElem?_map, hr]
                simp [htime]
              have hzv : (List.zipWith concatCell (getColVals df "date")
                  (getColVals df "time"))[i]? = some (some (.str (d ++ " " ++ t))) := by
                rw [getq_zipWith, hdv, htv]
                rfl
              obtain ⟨r2, hr2, hg2⟩ := setCol_value "datetime" hr hzv hrlen
              have hr2b : (withConcatCol "date" "time" df).rows[i]? = some r2 := hr2
              have hg2b : getCell (withConcatCol "date" "time" df).cols r2 "datetime"
                  = some (.str (d ++ " " ++ t)) := hg2
              have helem : (getColVals (withConcatCol "date" "time" df) "datetime")[i]?
                  = some (some (.str (d ++ " " ++ t))) := by
                unfold getColVals
                rw [List.getElem?_map, hr2b]
                rw [show Option.map
                    (fun r => getCell (withConcatCol "date" "time" df).cols r "datetime")
                    (some r2)
                  = some (getCell (withConcatCol "date" "time" df).cols r2 "datetime")
                  from rfl, hg2b]
              have hmem := List.getElem?_mem helem
              rw [List.all_eq_true] at h2
              have hok := h2 _ hmem
              unfold dtCellOK at hok
              have hfull : (parseFull (d ++ " " ++ t)).isSome = true := hok
              rw [parseFull_concat d t hvd] at hfull
              rw [hvt] at hfull
              cases hfull

/-- Witness for C6: the malformed date "2020-12-31" makes the operation fail.
-/
theorem create_datetime_spec_witness :
    (⟨["date", "time"], [[some (.str "2020-12-31"), some (.str "23:59:59")]],
      none⟩ : Frame).WF
    ∧ ¬ (validDate "2020-12-31" = true ∧ validTime "23:59:59" = true)
    ∧ (∃ e, create_datetime "date" "time"
        ⟨["date", "time"], [[some (.str "2020-12-31"), some (.str "23:59:59")]], none⟩
        = .error e) :=
  ⟨by decide, by decide,
   create_datetime_spec.2
     ⟨["date", "time"], [[some (.str "2020-12-31"), some (.str "23:59:59")]], none⟩
     (by decide) 0 [some (.str "2020-12-31"), some (.str "23:59:59")]
     "2020-12-31" "23:59:59" (by rfl) (by rfl) (by rfl) (by decide)⟩
